import Mathlib

/-!
Shallow embedding of the blackjack table server of this repository
(src/src/lib/gameTypes.ts and src/party/blackjack.ts) together with
theorems checking the natural-language specification against it.

Modelling conventions:
* JavaScript numbers holding chip amounts, bets and counts are embedded as
  `Int` (all arithmetic in the source is integer-valued; `Math.floor(x / 2)`
  and `Math.floor(x * 1.5)` are floor divisions, embedded with `Int.fdiv`).
* The shoe is a `List Card` whose HEAD is the next card drawn; the TypeScript
  code stores the shoe as an array and draws with `shoe.pop()` from the tail,
  so the list here is the reverse of that array.  Only the draw order matters
  to the code, never the array layout.
* `Math.random`-driven shuffles (`createShoe`) are modelled by passing the
  shuffle outcome as an explicit parameter `fresh : Card × List Card`; the
  real `createShoe(6)` always returns a non-empty (312 card) list, which the
  pair encodes.
* Wall-clock timer durations (`Date.now()`, `timer`, `timerEndTime`,
  `lastUpdate`) are not representable; the single timer slot of the server
  (`timerCallback` armed via `startTimer`/`clearTimer`) is modelled by the
  `pending : Option Pending` field naming which callback is armed.
* Chat messages, per-name statistics (`strategyStats`, `atmUsage`,
  `blackjackCounts`) and durable-storage writes are side channels not touched
  by any claim and are omitted; error replies to the sender and the fact that
  a room-wide broadcast happened are recorded in `HandlerOut`.
-/

namespace BJ

/-- Card suit (gameTypes.ts `Suit`). -/
inductive Suit where
  | hearts | diamonds | clubs | spades
deriving DecidableEq, Repr, BEq

/-- Card rank (gameTypes.ts `Rank`). -/
inductive Rank where
  | A | two | three | four | five | six | seven | eight | nine | ten | J | Q | K
deriving DecidableEq, Repr, BEq

/-- gameTypes.ts `Card`. -/
structure Card where
  suit : Suit
  rank : Rank
  faceUp : Bool
deriving DecidableEq, Repr, BEq

/-- Hand status (gameTypes.ts `Hand.status`). -/
inductive HandStatus where
  | playing | standing | busted | blackjack | doubled | surrendered
deriving DecidableEq, Repr, BEq

/-- gameTypes.ts `Hand`. -/
structure Hand where
  cards : List Card
  bet : Int
  status : HandStatus
  isDoubled : Bool
  isSplit : Bool
deriving DecidableEq, Repr, BEq

/-- Seat status (gameTypes.ts `Seat.status`). -/
inductive SeatStatus where
  | empty | waiting | betting | playing | done
deriving DecidableEq, Repr, BEq

/-- gameTypes.ts `Seat`.  `playerId` is the owning connection id. -/
structure Seat where
  playerId : Option String
  displayName : String
  chips : Int
  bet : Int
  lastBet : Int
  hands : List Hand
  status : SeatStatus
  insuranceBet : Int
deriving DecidableEq, Repr, BEq

/-- gameTypes.ts `GamePhase`. -/
inductive GamePhase where
  | waiting | betting | dealing | insurance | player_turn | dealer_turn | payout
deriving DecidableEq, Repr, BEq

/-- gameTypes.ts `GameState`, restricted to the fields the game logic reads
(wall-clock timer values and chat history omitted, see file header). -/
structure GameState where
  phase : GamePhase
  shoe : List Card
  cutCardIndex : Nat
  needsReshuffle : Bool
  dealerHand : List Card
  seats : List Seat
  activePlayerIndex : Int
  activeHandIndex : Nat
  spectators : List (String × String)
  chipBalances : List (String × Int)
  runningCount : Int
deriving DecidableEq, Repr

/-- The timer callback armed via `startTimer` in blackjack.ts: at most one is
pending at a time (`timerCallback` slot). -/
inductive Pending where
  | pBettingEnd       -- () => this.onBettingEnd()
  | pInsuranceTimeout -- () => this.onInsuranceTimeout()
  | pStartPlayerTurns -- () => this.startPlayerTurns()
  | pTurnTimeout      -- () => this.onTurnTimeout()
  | pDealerPlay       -- () => this.playDealerHand()
  | pCalculatePayouts -- () => this.calculatePayouts()
  | pRoundEnd         -- the round-restart lambda at the end of calculatePayouts
deriving DecidableEq, Repr

/-- The server actor's state: game state plus the single pending timer. -/
structure ServerState where
  game : GameState
  pending : Option Pending
deriving DecidableEq, Repr

/-- Result of one message handler: the new server state, the error replies
sent to the offending connection only (`sendToConnection`), and whether any
room-wide broadcast was emitted. -/
structure HandlerOut where
  ss : ServerState
  errs : List String
  broadcasted : Bool
deriving DecidableEq, Repr

/-! ## Card utilities (gameTypes.ts) -/

/-- gameTypes.ts `createDeck`: 52 cards, suit-major, all face up. -/
def deckRanks : List Rank :=
  [.A, .two, .three, .four, .five, .six, .seven, .eight, .nine, .ten, .J, .Q, .K]

/-- The suits in `createDeck` order. -/
def deckSuits : List Suit := [.hearts, .diamonds, .clubs, .spades]

/-- gameTypes.ts `createDeck`. -/
def createDeck : List Card :=
  deckSuits.flatMap (fun s => deckRanks.map (fun r => ⟨s, r, true⟩))

/-- Is the rank a ten-value rank (the `['10','J','Q','K']` checks). -/
def isTenRank (r : Rank) : Bool :=
  match r with
  | .ten | .J | .Q | .K => true
  | _ => false

/-- One step of the accumulation loop of `calculateHandValue`: skip face-down
cards, count aces as 11 while remembering how many were seen. -/
def tallyStep (acc : Nat × Nat) (c : Card) : Nat × Nat :=
  if c.faceUp then
    match c.rank with
    | .A => (acc.1 + 11, acc.2 + 1)
    | .K | .Q | .J => (acc.1 + 10, acc.2)
    | .ten => (acc.1 + 10, acc.2)
    | .two => (acc.1 + 2, acc.2)
    | .three => (acc.1 + 3, acc.2)
    | .four => (acc.1 + 4, acc.2)
    | .five => (acc.1 + 5, acc.2)
    | .six => (acc.1 + 6, acc.2)
    | .seven => (acc.1 + 7, acc.2)
    | .eight => (acc.1 + 8, acc.2)
    | .nine => (acc.1 + 9, acc.2)
  else acc

/-- The `while (total > 21 && aces > 0)` loop of `calculateHandValue`:
downgrade aces from 11 to 1 while busting. -/
def adjustAces : Nat → Nat → Nat × Nat
  | total, 0 => (total, 0)
  | total, aces + 1 =>
    if 21 < total then adjustAces (total - 10) aces else (total, aces + 1)

/-- Return type of `calculateHandValue`. -/
structure HandValue where
  value : Nat
  isSoft : Bool
deriving DecidableEq, Repr

/-- gameTypes.ts `calculateHandValue`: sums face-up cards, aces 11 downgraded
to 1 while the total exceeds 21; soft iff an ace still counts as 11. -/
def calculateHandValue (cards : List Card) : HandValue :=
  let t := cards.foldl tallyStep (0, 0)
  let r := adjustAces t.1 t.2
  ⟨r.1, 0 < r.2⟩

/-- gameTypes.ts `isBlackjack`: two cards, an ace and a ten-value card,
regardless of `faceUp`. -/
def isBlackjack (cards : List Card) : Bool :=
  decide (cards.length = 2) &&
    cards.any (fun c => decide (c.rank = .A)) &&
    cards.any (fun c => isTenRank c.rank)

/-- gameTypes.ts `canSplit`: a two-card, not-already-split hand of equal rank
or of two ten-value ranks. -/
def canSplit (h : Hand) : Bool :=
  if ¬ (h.cards.length = 2) then false
  else if h.isSplit then false
  else
    match h.cards with
    | [c1, c2] =>
      decide (c1.rank = c2.rank) || (isTenRank c1.rank && isTenRank c2.rank)
    | _ => false

/-- gameTypes.ts `canDouble`. -/
def canDouble (h : Hand) : Bool :=
  decide (h.cards.length = 2) && !h.isDoubled

/-- gameTypes.ts `createEmptySeat`. -/
def createEmptySeat : Seat :=
  { playerId := none, displayName := "", chips := 0, bet := 0, lastBet := 0,
    hands := [], status := .empty, insuranceBet := 0 }

/-- gameTypes.ts `createInitialGameState`, parametrised by the shuffle
outcome of `createShoe(2)` (a permutation of two decks).
`cutCardIndex = Math.floor(shoe.length * 0.75)` (0.75 is exact in binary
floating point, so this is exact floor division). -/
def createInitialGameState (shoe : List Card) : GameState :=
  { phase := .waiting, shoe := shoe, cutCardIndex := shoe.length * 75 / 100,
    needsReshuffle := false, dealerHand := [],
    seats := List.replicate 6 createEmptySeat,
    activePlayerIndex := -1, activeHandIndex := 0,
    spectators := [], chipBalances := [], runningCount := 0 }

/-- A freshly started server (`constructor` of `BlackjackServer`): initial
game state, no timer armed. -/
def serverInit (shoe : List Card) : ServerState :=
  { game := createInitialGameState shoe, pending := none }

/-! ## List helpers (in-place array mutation / splice, made functional) -/

/-- In-place update of element `n` (JavaScript `l[n].f = ...`); out-of-range
indices leave the list unchanged (the source never hits them). -/
def modifyAt : List α → Nat → (α → α) → List α
  | [], _, _ => []
  | a :: as, 0, f => f a :: as
  | a :: as, n + 1, f => a :: modifyAt as n f

/-- JavaScript `l.splice(n, 0, x)`: insert `x` before position `n`. -/
def insertAt (l : List α) (n : Nat) (x : α) : List α :=
  l.take n ++ x :: l.drop n

theorem modifyAt_get? (l : List α) (n : Nat) (f : α → α) (i : Nat) :
    (modifyAt l n f).get? i =
      if i = n then (l.get? i).map f else l.get? i := by
  induction l generalizing n i with
  | nil => simp [modifyAt]
  | cons a as ih =>
    cases n with
    | zero =>
      cases i with
      | zero => simp [modifyAt]
      | succ j => simp [modifyAt]
    | succ m =>
      cases i with
      | zero => simp [modifyAt]
      | succ j => simpa [modifyAt, Nat.succ_eq_add_one] using ih m j

theorem modifyAt_length (l : List α) (n : Nat) (f : α → α) :
    (modifyAt l n f).length = l.length := by
  induction l generalizing n with
  | nil => simp [modifyAt]
  | cons a as ih =>
    cases n with
    | zero => simp [modifyAt]
    | succ m => simp [modifyAt, ih]

/-! ## Shoe operations (blackjack.ts) -/

/-- The Hi-Lo delta applied to `runningCount` by `drawCard`:
2-6 add one, 10/J/Q/K/A subtract one, 7-9 are neutral. -/
def hiLoDelta (r : Rank) : Int :=
  match r with
  | .two | .three | .four | .five | .six => 1
  | .ten | .J | .Q | .K | .A => -1
  | .seven | .eight | .nine => 0

/-- blackjack.ts `reshuffleShoe`: a fresh six-deck shoe (shuffle outcome
passed in as the non-empty `fresh`), cut card at 80% penetration
(`Math.floor(length * 0.80)`, exact for the real length 312), reshuffle flag
cleared and running count reset to 0. -/
def reshuffleShoe (fresh : Card × List Card) (g : GameState) : GameState :=
  let shoe := fresh.1 :: fresh.2
  { g with
    shoe := shoe
    cutCardIndex := shoe.length * 80 / 100
    needsReshuffle := false
    runningCount := 0 }

/-- The tail of `drawCard` after the card `c` has been popped, leaving
`rest`: update the running count, set `needsReshuffle` once the remaining
length is at or below the cut card index, and return the card face up. -/
def drawStep (c : Card) (rest : List Card) (g : GameState) : Card × GameState :=
  ({ c with faceUp := true },
   { g with
     shoe := rest
     runningCount := g.runningCount + hiLoDelta c.rank
     needsReshuffle := if rest.length ≤ g.cutCardIndex then true else g.needsReshuffle })

/-- blackjack.ts `drawCard`: reshuffle first if the shoe is empty, then pop
the next card. -/
def drawCard (fresh : Card × List Card) (g : GameState) : Card × GameState :=
  match g.shoe with
  | [] =>
    let g' := reshuffleShoe fresh g
    drawStep fresh.1 fresh.2 g'
  | c :: rest => drawStep c rest g

/-- Runs `n` successive `drawCard` calls, returning the cards in draw order. -/
def drawN (fresh : Card × List Card) : Nat → GameState → List Card × GameState
  | 0, g => ([], g)
  | n + 1, g =>
    let (c, g') := drawCard fresh g
    let (cs, g'') := drawN fresh n g'
    (c :: cs, g'')

/-! ## Input sanitisation (blackjack.ts `sanitizeInput`) -/

/-- The HTML-special characters stripped by `sanitizeInput`. -/
def htmlSpecialChars : List Char := ['<', '>', '"', '\'', '&']

/-- Keep a character iff it is neither HTML-special nor a control character
(`\x00`-`\x1F`, `\x7F`). -/
def keepChar (c : Char) : Bool :=
  !(htmlSpecialChars.contains c) && !(decide (c.toNat ≤ 31)) && !(decide (c.toNat = 127))

/-- ASCII whitespace trimmed by `String.prototype.trim`. -/
def isTrimChar (c : Char) : Bool :=
  decide (c = ' ') || decide (c = '\t') || decide (c = '\n') || decide (c = '\r')

/-- Drop whitespace from both ends (JavaScript `trim`). -/
def trimChars (cs : List Char) : List Char :=
  ((cs.dropWhile isTrimChar).reverse.dropWhile isTrimChar).reverse

/-- blackjack.ts `sanitizeInput`: truncate, strip HTML-special and control
characters, trim. -/
def sanitizeInput (input : String) (maxLength : Nat) : String :=
  String.mk (trimChars ((input.toList.take maxLength).filter keepChar))

/-! ## Small state helpers -/

/-- Embeds `this.state.seats.findIndex((s) => s.playerId === sender.id)`; `none`
stands for the JavaScript result `-1`. -/
def findSeatIdx (pid : String) (seats : List Seat) : Option Nat :=
  seats.findIdx? (fun s => decide (s.playerId = some pid))

/-- Reads `this.state.seats[i]` for a possibly negative index. -/
def seatAt (g : GameState) (i : Int) : Option Seat :=
  if i < 0 then none else g.seats.get? i.toNat

/-- Functionally update the seat at (possibly negative) index `i`. -/
def setSeatAt (g : GameState) (i : Int) (f : Seat → Seat) : GameState :=
  if i < 0 then g else { g with seats := modifyAt g.seats i.toNat f }

/-- Reads `this.state.chipBalances[name]` (association-list model of the record). -/
def lookupBal (name : String) (bal : List (String × Int)) : Option Int :=
  (bal.find? (fun p => decide (p.1 = name))).map (·.2)

/-- Writes `this.state.chipBalances[name] = v`. -/
def setBal (name : String) (v : Int) (bal : List (String × Int)) : List (String × Int) :=
  if bal.any (fun p => decide (p.1 = name)) then
    bal.map (fun p => if p.1 = name then (p.1, v) else p)
  else (name, v) :: bal

/-- Sets `this.state.dealerHand[1].faceUp = true` (reveal the hole card); a
missing hole card leaves the hand unchanged. -/
def flipHole (cards : List Card) : List Card :=
  modifyAt cards 1 (fun c => { c with faceUp := true })

/-- Error reply strings of blackjack.ts. -/
def errInvalidName : String := "Invalid name"

def errInvalidSeat : String := "Invalid seat"

def errSeatTaken : String := "Seat is taken"

def errAlreadySeated : String := "Already in a seat"

def errCannotBet : String := "Cannot bet now"

def errNotInSeat : String := "Not in a seat"

def errNotEnoughChips : String := "Not enough chips"

def errNotEnoughDouble : String := "Not enough chips to double"

def errMaxSplits : String := "Max splits reached"

def errNotEnoughSplit : String := "Not enough chips to split"

def errCannotSurrender : String := "Cannot surrender now"

def errNoInsurance : String := "Insurance not available"

/-! ## Payout engine (blackjack.ts `calculatePayouts`) -/

/-- The per-hand settlement of `calculatePayouts`: the chips credited to the
seat for one hand, given the dealer's final hand.  Busted and surrendered
hands pay 0; blackjack vs blackjack pushes the bet; a player blackjack pays
`bet + Math.floor(bet * 1.5)`; a dealer blackjack alone pays 0; a dealer bust
or a higher player total pays `2 * bet`; equal totals push the bet; anything
else pays 0. -/
def settleHand (dealerHand : List Card) (h : Hand) : Int :=
  if h.status = .busted then 0
  else if h.status = .surrendered then 0
  else
    let dealerValue := (calculateHandValue dealerHand).value
    let dealerBusted := 21 < dealerValue
    let dealerBlackjack := isBlackjack dealerHand
    let playerValue := (calculateHandValue h.cards).value
    let playerBlackjack := h.status = .blackjack
    if playerBlackjack ∧ dealerBlackjack then h.bet
    else if playerBlackjack then h.bet + Int.fdiv (3 * h.bet) 2
    else if dealerBlackjack then 0
    else if dealerBusted then 2 * h.bet
    else if dealerValue < playerValue then 2 * h.bet
    else if playerValue = dealerValue then h.bet
    else 0

/-- The per-seat loop body of `calculatePayouts`: add each hand's settlement
to the seat's chips, one hand at a time. -/
def settleSeat (dealerHand : List Card) (s : Seat) : Seat :=
  { s with chips := s.hands.foldl (fun c h => c + settleHand dealerHand h) s.chips }

/-- blackjack.ts `calculatePayouts`: enter the payout phase, settle every
occupied seat, write every occupied seat's chips into the display-name keyed
balance map, and arm the round-restart timer. -/
def calculatePayouts (ss : ServerState) : ServerState :=
  let g := ss.game
  let seats' := g.seats.map (fun s => if s.playerId.isSome then settleSeat g.dealerHand s else s)
  let bal' := seats'.foldl
    (fun b s => if s.playerId.isSome then setBal s.displayName s.chips b else b)
    g.chipBalances
  { game := { g with
      phase := .payout
      seats := seats'
      chipBalances := bal' }
    pending := some .pRoundEnd }

/-! ## Dealer play (blackjack.ts `playDealerHand`) -/

/-- One invocation of blackjack.ts `playDealerHand` (each further card is
drawn by a later timer callback): if the dealer total is at least 17 —
including soft 17 — stand and schedule payouts; otherwise draw one card and
schedule the next invocation. -/
def playDealerHand (fresh : Card × List Card) (ss : ServerState) : ServerState :=
  if 17 ≤ (calculateHandValue ss.game.dealerHand).value then
    { ss with pending := some .pCalculatePayouts }
  else
    let (c, g') := drawCard fresh ss.game
    { game := { g' with dealerHand := g'.dealerHand ++ [c] }
      pending := some .pDealerPlay }

/-- blackjack.ts `startDealerTurn`: clear the timer, reveal the hole card,
and either settle immediately (nobody standing and no blackjack) or play the
dealer hand. -/
def startDealerTurn (fresh : Card × List Card) (ss : ServerState) : ServerState :=
  let g := { ss.game with
    phase := .dealer_turn
    activePlayerIndex := -1
    dealerHand := flipHole ss.game.dealerHand }
  let ss' : ServerState := { game := g, pending := none }
  let actives := g.seats.filter (fun s =>
    s.playerId.isSome &&
      s.hands.any (fun h => decide (h.status = .standing) || decide (h.status = .blackjack)))
  if actives.isEmpty then calculatePayouts ss' else playDealerHand fresh ss'

/-! ## Turn advancement -/

/-- Does a seat still need to act (`findNextActivePlayer` loop body)? -/
def seatNeedsAction (s : Seat) : Bool :=
  s.playerId.isSome && !s.hands.isEmpty && s.hands.any (fun h => decide (h.status = .playing))

/-- blackjack.ts `findNextActivePlayer`: first seat index after `current`
(seats 0..5) that still needs to act, `-1` if none. -/
def findNextActivePlayer (current : Int) (seats : List Seat) : Int :=
  match (List.range 6).find? (fun i =>
      decide (current < Int.ofNat i) &&
        (match seats.get? i with
         | some s => seatNeedsAction s
         | none => false)) with
  | some i => Int.ofNat i
  | none => -1

/-- First hand index at or after `start` whose status is `playing`. -/
def findPlayingFrom (hands : List Hand) (start : Nat) : Option Nat :=
  (List.range hands.length).find? (fun i =>
    decide (start ≤ i) &&
      (match hands.get? i with
       | some h => decide (h.status = .playing)
       | none => false))

/-- The `for` loop that positions `activeHandIndex` on the first playing
hand of a newly active seat; keeps 0 when none is playing. -/
def firstPlayingIdx (hands : List Hand) : Nat :=
  match findPlayingFrom hands 0 with
  | some i => i
  | none => 0

/-- blackjack.ts `nextPlayerOrHand`: next playing hand of the current seat,
else mark the seat done and move to the next seat that needs action, else
start the dealer turn. -/
def nextPlayerOrHand (fresh : Card × List Card) (ss : ServerState) : ServerState :=
  match seatAt ss.game ss.game.activePlayerIndex with
  | none => ss
  | some seat =>
    match findPlayingFrom seat.hands (ss.game.activeHandIndex + 1) with
    | some i =>
      { game := { ss.game with activeHandIndex := i }, pending := some .pTurnTimeout }
    | none =>
      let g := setSeatAt ss.game ss.game.activePlayerIndex (fun s => { s with status := .done })
      let api := findNextActivePlayer g.activePlayerIndex g.seats
      let g := { g with
        activePlayerIndex := api
        activeHandIndex := 0 }
      if api = -1 then startDealerTurn fresh { ss with game := g }
      else
        let ahi := match seatAt g api with
          | some ns => firstPlayingIdx ns.hands
          | none => 0
        { game := { g with activeHandIndex := ahi }, pending := some .pTurnTimeout }

/-- blackjack.ts `onTurnTimeout`: auto-stand the hand at the active indices
(no status check in the source) and advance. -/
def onTurnTimeout (fresh : Card × List Card) (ss : ServerState) : ServerState :=
  match seatAt ss.game ss.game.activePlayerIndex with
  | none => ss
  | some seat =>
    match seat.hands.get? ss.game.activeHandIndex with
    | none => ss
    | some _ =>
      let g := setSeatAt ss.game ss.game.activePlayerIndex (fun s =>
        { s with hands := (modifyAt s.hands ss.game.activeHandIndex
            (fun h => { h with status := .standing })) })
      nextPlayerOrHand fresh { ss with game := g }

/-! ## Round boundary (blackjack.ts `startBettingPhase`, `checkGameState`) -/

/-- blackjack.ts `startBettingPhase`: the round boundary.  Reshuffles iff
`needsReshuffle` is set, resets hands, auto-bets `min(lastBet, chips)` for
seats with a positive carried bet, and arms the betting timer iff any
auto-bet was placed. -/
def startBettingPhase (fresh : Card × List Card) (ss : ServerState) : ServerState :=
  let g := if ss.game.needsReshuffle then reshuffleShoe fresh ss.game else ss.game
  let seats' := g.seats.map (fun s =>
    if s.playerId.isSome then
      let s := { s with hands := ([] : List Hand), status := SeatStatus.waiting }
      if decide (0 < s.lastBet) && decide (0 < s.chips) then
        { s with bet := min s.lastBet s.chips, status := .betting }
      else { s with bet := 0 }
    else s)
  let anyBets := g.seats.any (fun s =>
    s.playerId.isSome && decide (0 < s.lastBet) && decide (0 < s.chips))
  { game := { g with
      seats := seats'
      dealerHand := []
      phase := .betting
      activePlayerIndex := -1
      activeHandIndex := 0 }
    pending := if anyBets then some .pBettingEnd else none }

/-- blackjack.ts `checkGameState`: with no occupied seat go to `waiting` and
clear the timer; from `waiting` with players start the betting phase. -/
def checkGameState (fresh : Card × List Card) (ss : ServerState) : ServerState :=
  if (ss.game.seats.filter (fun s => s.playerId.isSome)).isEmpty then
    { game := { ss.game with phase := .waiting }, pending := none }
  else if ss.game.phase = .waiting then startBettingPhase fresh ss
  else ss

/-! ## Dealing (blackjack.ts `onBettingEnd`, `dealInitialCards`) -/

/-- Seat indices with a positive bet (the `seatsWithBets` filter). -/
def betIdxs (g : GameState) : List Nat :=
  (List.range g.seats.length).filter (fun i =>
    match g.seats.get? i with
    | some s => decide (0 < s.bet)
    | none => false)

/-- Push a freshly drawn card onto hand 0 of seat `i`. -/
def pushCardToHand0 (i : Nat) (c : Card) (g : GameState) : GameState :=
  { g with seats := modifyAt g.seats i (fun s =>
      { s with hands := modifyAt s.hands 0 (fun h => { h with cards := h.cards ++ [c] }) }) }

/-- Deal one card to each listed seat in order. -/
def dealRound (fresh : Card × List Card) (idxs : List Nat) (g : GameState) : GameState :=
  idxs.foldl (fun g i =>
    let (c, g') := drawCard fresh g
    pushCardToHand0 i c g') g

/-- Mark hand 0 of a seat `blackjack` when it is one (the post-deal check). -/
def markBlackjack (s : Seat) : Seat :=
  { s with hands := (modifyAt s.hands 0
      (fun h => if isBlackjack h.cards then { h with status := .blackjack } else h)) }

/-- blackjack.ts `startInsurancePhase`: enter the insurance phase and arm the
insurance decision timer. -/
def startInsurancePhase (ss : ServerState) : ServerState :=
  { game := { ss.game with phase := .insurance }, pending := some .pInsuranceTimeout }

/-- blackjack.ts `dealInitialCards`: two cards to every betting seat and two
to the dealer (hole card face down), mark player blackjacks, reset insurance
bets, then branch: ace up → insurance phase; ten-value up with dealer
blackjack → reveal and schedule payouts; otherwise schedule player turns. -/
def dealInitialCards (fresh : Card × List Card) (ss : ServerState) : ServerState :=
  let g0 := { ss.game with phase := GamePhase.dealing }
  let idxs := betIdxs g0
  let g1 := dealRound fresh idxs g0
  let d1g := drawCard fresh g1
  let dealerCard1 := d1g.1
  let g2 := { d1g.2 with dealerHand := d1g.2.dealerHand ++ [dealerCard1] }
  let g3 := dealRound fresh idxs g2
  let d2g := drawCard fresh g3
  let holeCard : Card := { d2g.1 with faceUp := false }
  let g4 : GameState := { d2g.2 with dealerHand := d2g.2.dealerHand ++ [holeCard] }
  let g5 : GameState :=
    { g4 with seats := g4.seats.map (fun s => if 0 < s.bet then markBlackjack s else s) }
  let g6 : GameState :=
    { g5 with seats := g5.seats.map (fun s => { s with insuranceBet := 0 }) }
  if dealerCard1.rank = .A then
    startInsurancePhase { game := g6, pending := ss.pending }
  else if isTenRank dealerCard1.rank && isBlackjack g6.dealerHand then
    { game := { g6 with
        phase := .dealer_turn
        dealerHand := flipHole g6.dealerHand }
      pending := some .pCalculatePayouts }
  else
    { game := g6, pending := some .pStartPlayerTurns }

/-- blackjack.ts `onBettingEnd`: restart betting when nobody bet; otherwise
commit every positive bet (save it as `lastBet`, deduct it, open one playing
hand carrying it) and deal. -/
def onBettingEnd (fresh : Card × List Card) (ss : ServerState) : ServerState :=
  let bettors := ss.game.seats.filter (fun s => s.playerId.isSome && decide (0 < s.bet))
  if bettors.isEmpty then startBettingPhase fresh ss
  else
    let seats' := ss.game.seats.map (fun s =>
      if s.playerId.isSome && decide (0 < s.bet) then
        { s with
          lastBet := s.bet
          chips := s.chips - s.bet
          hands := [{ cards := [], bet := s.bet, status := .playing,
                      isDoubled := false, isSplit := false }]
          status := .playing }
      else s)
    dealInitialCards fresh { ss with game := { ss.game with seats := seats' } }

/-- blackjack.ts `startPlayerTurns`: find the first seat that needs to act;
none means the dealer plays at once. -/
def startPlayerTurns (fresh : Card × List Card) (ss : ServerState) : ServerState :=
  let g := { ss.game with
    phase := GamePhase.player_turn
    activeHandIndex := 0 }
  let api := findNextActivePlayer (-1) g.seats
  let g := { g with activePlayerIndex := api }
  if api = -1 then startDealerTurn fresh { ss with game := g }
  else { game := g, pending := some .pTurnTimeout }

/-! ## Insurance (blackjack.ts) -/

/-- The accept/decline update of `handleInsurance` on the acting seat:
accepting stakes `Math.floor(bet / 2)` when the chips suffice, anything else
records a decline (`-1`). -/
def insuranceDecision (accept : Bool) (s : Seat) : Seat :=
  if accept then
    let insuranceCost := Int.fdiv s.bet 2
    if insuranceCost ≤ s.chips then
      { s with chips := s.chips - insuranceCost, insuranceBet := insuranceCost }
    else { s with insuranceBet := -1 }
  else { s with insuranceBet := -1 }

/-- Dealer-blackjack branch of `checkInsuranceComplete` on one seat: a staked
insurance bet is credited three times over (2:1 winnings plus the stake). -/
def insuranceSettleBJ (s : Seat) : Seat :=
  if 0 < s.insuranceBet then { s with chips := s.chips + 3 * s.insuranceBet } else s

/-- No-dealer-blackjack branch of `checkInsuranceComplete` on one seat:
declines are reset to 0; staked bets are simply left behind (forfeited — the
stake was already deducted and nothing is credited). -/
def insuranceClearDecline (s : Seat) : Seat :=
  if s.insuranceBet = -1 then { s with insuranceBet := 0 } else s

/-- blackjack.ts `checkInsuranceComplete`: once every occupied betting seat
has decided, settle insurance — dealer blackjack reveals the hole card, pays
every stake 3x and schedules payouts; otherwise stakes are forfeited and the
player turns are scheduled. -/
def checkInsuranceComplete (ss : ServerState) : ServerState :=
  let needsDecision := ss.game.seats.any (fun s =>
    s.playerId.isSome && decide (0 < s.bet) && decide (s.insuranceBet = 0))
  if needsDecision then ss
  else
    let ss' : ServerState := { ss with pending := none }
    if isBlackjack ss'.game.dealerHand then
      { game := { ss'.game with
          phase := .dealer_turn
          dealerHand := flipHole ss'.game.dealerHand
          seats := ss'.game.seats.map insuranceSettleBJ }
        pending := some .pCalculatePayouts }
    else
      { game := { ss'.game with seats := ss'.game.seats.map insuranceClearDecline }
        pending := some .pStartPlayerTurns }

/-- blackjack.ts `onInsuranceTimeout`: undecided seats decline, then resolve. -/
def onInsuranceTimeout (ss : ServerState) : ServerState :=
  let seats' := ss.game.seats.map (fun s =>
    if s.playerId.isSome && decide (0 < s.bet) && decide (s.insuranceBet = 0) then
      { s with insuranceBet := -1 }
    else s)
  checkInsuranceComplete { ss with game := { ss.game with seats := seats' } }

/-- The round-restart lambda at the end of `calculatePayouts`: players with
chips left start a new betting round, otherwise fall back to `waiting`. -/
def roundEnd (fresh : Card × List Card) (ss : ServerState) : ServerState :=
  let withChips := ss.game.seats.filter (fun s => s.playerId.isSome && decide (0 < s.chips))
  if withChips.isEmpty then
    checkGameState fresh { ss with game := { ss.game with phase := GamePhase.waiting } }
  else startBettingPhase fresh ss

/-- blackjack.ts `onAlarm`: fire the single pending timer callback (clearing
the slot first, as `onAlarm` does). -/
def fireTimer (fresh : Card × List Card) (ss : ServerState) : ServerState :=
  match ss.pending with
  | none => ss
  | some p =>
    let ss' : ServerState := { ss with pending := none }
    match p with
    | .pBettingEnd => onBettingEnd fresh ss'
    | .pInsuranceTimeout => onInsuranceTimeout ss'
    | .pStartPlayerTurns => startPlayerTurns fresh ss'
    | .pTurnTimeout => onTurnTimeout fresh ss'
    | .pDealerPlay => playDealerHand fresh ss'
    | .pCalculatePayouts => calculatePayouts ss'
    | .pRoundEnd => roundEnd fresh ss'

/-! ## Message handlers (blackjack.ts `handle*`) -/

/-- Silent rejection: state untouched, nothing sent anywhere. -/
def silentOut (ss : ServerState) : HandlerOut := ⟨ss, [], false⟩

/-- Error rejection: state untouched, one error reply to the sender only. -/
def errOut (ss : ServerState) (e : String) : HandlerOut := ⟨ss, [e], false⟩

/-- blackjack.ts `handleJoinSeat`. -/
def handleJoinSeat (fresh : Card × List Card) (seatIndex : Int)
    (displayName pid : String) (ss : ServerState) : HandlerOut :=
  let name := sanitizeInput displayName 12
  if name = "" then errOut ss errInvalidName
  else if seatIndex < 0 ∨ 6 ≤ seatIndex then errOut ss errInvalidSeat
  else
    match ss.game.seats.get? seatIndex.toNat with
    | none => silentOut ss
    | some seat =>
      if seat.playerId.isSome then errOut ss errSeatTaken
      else if (findSeatIdx pid ss.game.seats).isSome then errOut ss errAlreadySeated
      else
        let chips := (lookupBal name ss.game.chipBalances).getD 10000
        let g := { ss.game with
          spectators := ss.game.spectators.filter (fun p => decide (¬ p.1 = pid))
          chipBalances := setBal name chips ss.game.chipBalances
          seats := (ss.game.seats.set seatIndex.toNat
            { playerId := some pid, displayName := name, chips := chips, bet := 0,
              lastBet := 0, insuranceBet := 0, hands := [], status := .waiting }) }
        ⟨checkGameState fresh { ss with game := g }, [], true⟩

/-- blackjack.ts `handleLeaveSeat`. -/
def handleLeaveSeat (fresh : Card × List Card) (pid : String) (ss : ServerState) : HandlerOut :=
  match findSeatIdx pid ss.game.seats with
  | none => silentOut ss
  | some si =>
    match ss.game.seats.get? si with
    | none => silentOut ss
    | some seat =>
      let bal := if seat.displayName = "" then ss.game.chipBalances
        else setBal seat.displayName seat.chips ss.game.chipBalances
      let g := { ss.game with
        chipBalances := bal
        seats := ss.game.seats.set si createEmptySeat }
      ⟨checkGameState fresh { ss with game := g }, [], true⟩

/-- blackjack.ts `handlePlaceBet`: any integer `amount` passing the
`bet + amount > chips` check is added to the bet — the sign of `amount` is
never checked. -/
def handlePlaceBet (amount : Int) (pid : String) (ss : ServerState) : HandlerOut :=
  if ¬ ss.game.phase = .betting then errOut ss errCannotBet
  else
    match findSeatIdx pid ss.game.seats with
    | none => errOut ss errNotInSeat
    | some si =>
      match ss.game.seats.get? si with
      | none => silentOut ss
      | some seat =>
        if seat.chips < seat.bet + amount then errOut ss errNotEnoughChips
        else
          let g := { ss.game with seats := (modifyAt ss.game.seats si (fun s =>
            { s with bet := s.bet + amount, status := .betting })) }
          ⟨{ game := g, pending := some .pBettingEnd }, [], true⟩

/-- blackjack.ts `handleClearBet`: zero the bet and `lastBet`; re-arm the
betting timer only if this seat had a bet and somebody still has one. -/
def handleClearBet (pid : String) (ss : ServerState) : HandlerOut :=
  if ¬ ss.game.phase = .betting then silentOut ss
  else
    match findSeatIdx pid ss.game.seats with
    | none => silentOut ss
    | some si =>
      let previousBet := ((ss.game.seats.get? si).map (·.bet)).getD 0
      let seats' := modifyAt ss.game.seats si (fun s =>
        { s with bet := 0, lastBet := 0, status := .waiting })
      let pending' := if 0 < previousBet ∧ seats'.any (fun s => decide (0 < s.bet)) then
        some Pending.pBettingEnd else ss.pending
      ⟨{ game := { ss.game with seats := seats' }, pending := pending' }, [], true⟩

/-- The shared turn-action guard: correct phase, sender seated, sender's
seat is the active one.  Returns the seat index and seat. -/
def activeSeatOf (pid : String) (ss : ServerState) : Option (Nat × Seat) :=
  if ¬ ss.game.phase = .player_turn then none
  else
    match findSeatIdx pid ss.game.seats with
    | none => none
    | some si =>
      if ¬ Int.ofNat si = ss.game.activePlayerIndex then none
      else (ss.game.seats.get? si).map (fun s => (si, s))

/-- blackjack.ts `handleHit`: draw one card into the active hand; bust marks
`busted` and advances, 21 marks `standing` and advances, otherwise the turn
timer restarts. -/
def handleHit (fresh : Card × List Card) (pid : String) (ss : ServerState) : HandlerOut :=
  match activeSeatOf pid ss with
  | none => silentOut ss
  | some (si, seat) =>
    match seat.hands.get? ss.game.activeHandIndex with
    | none => silentOut ss
    | some hand =>
      if ¬ hand.status = .playing then silentOut ss
      else
        let (c, g1) := drawCard fresh ss.game
        let newCards := hand.cards ++ [c]
        let v := (calculateHandValue newCards).value
        let newStatus := if 21 < v then HandStatus.busted
          else if v = 21 then HandStatus.standing else hand.status
        let g2 := { g1 with seats := (modifyAt g1.seats si (fun s =>
          { s with hands := (modifyAt s.hands ss.game.activeHandIndex
              (fun h => { h with cards := newCards, status := newStatus })) })) }
        if 21 ≤ v then
          ⟨nextPlayerOrHand fresh { game := g2, pending := ss.pending }, [], true⟩
        else
          ⟨{ game := g2, pending := some .pTurnTimeout }, [], true⟩

/-- blackjack.ts `handleStand`. -/
def handleStand (fresh : Card × List Card) (pid : String) (ss : ServerState) : HandlerOut :=
  match activeSeatOf pid ss with
  | none => silentOut ss
  | some (si, seat) =>
    match seat.hands.get? ss.game.activeHandIndex with
    | none => silentOut ss
    | some hand =>
      if ¬ hand.status = .playing then silentOut ss
      else
        let g := { ss.game with seats := (modifyAt ss.game.seats si (fun s =>
          { s with hands := (modifyAt s.hands ss.game.activeHandIndex
              (fun h => { h with status := .standing })) })) }
        ⟨nextPlayerOrHand fresh { game := g, pending := ss.pending }, [], true⟩

/-- blackjack.ts `handleSurrender`: only on an untouched (two-card, not
split) playing hand; refunds `Math.floor(bet / 2)` at once. -/
def handleSurrender (fresh : Card × List Card) (pid : String) (ss : ServerState) : HandlerOut :=
  match activeSeatOf pid ss with
  | none => silentOut ss
  | some (si, seat) =>
    match seat.hands.get? ss.game.activeHandIndex with
    | none => silentOut ss
    | some hand =>
      if ¬ hand.status = .playing then silentOut ss
      else if ¬ hand.cards.length = 2 ∨ hand.isSplit then errOut ss errCannotSurrender
      else
        let g := { ss.game with seats := (modifyAt ss.game.seats si (fun s =>
          { s with
            chips := s.chips + Int.fdiv hand.bet 2
            hands := (modifyAt s.hands ss.game.activeHandIndex
              (fun h => { h with status := .surrendered })) })) }
        ⟨nextPlayerOrHand fresh { game := g, pending := ss.pending }, [], true⟩

/-- blackjack.ts `handleDouble`: `canDouble` plus a chip check, then double
the bet, draw exactly one card and force-resolve to standing or busted. -/
def handleDouble (fresh : Card × List Card) (pid : String) (ss : ServerState) : HandlerOut :=
  match activeSeatOf pid ss with
  | none => silentOut ss
  | some (si, seat) =>
    match seat.hands.get? ss.game.activeHandIndex with
    | none => silentOut ss
    | some hand =>
      if ¬ canDouble hand then silentOut ss
      else if seat.chips < hand.bet then errOut ss errNotEnoughDouble
      else
        let (c, g1) := drawCard fresh ss.game
        let newCards := hand.cards ++ [c]
        let v := (calculateHandValue newCards).value
        let newStatus := if 21 < v then HandStatus.busted else HandStatus.standing
        let g2 := { g1 with seats := (modifyAt g1.seats si (fun s =>
          { s with
            chips := s.chips - hand.bet
            hands := (modifyAt s.hands ss.game.activeHandIndex (fun h =>
              { h with cards := newCards, bet := h.bet * 2, isDoubled := true,
                       status := newStatus })) })) }
        ⟨nextPlayerOrHand fresh { game := g2, pending := ss.pending }, [], true⟩

/-- blackjack.ts `handleSplit`: `canSplit` plus the 4-hand cap and a chip
check; deduct one bet, move the second card into a new sibling hand marked
`isSplit` (the original is marked `isSplit` too), deal one fresh card to
each, insert the sibling right after the current hand and restart the turn
timer. -/
def handleSplit (fresh : Card × List Card) (pid : String) (ss : ServerState) : HandlerOut :=
  match activeSeatOf pid ss with
  | none => silentOut ss
  | some (si, seat) =>
    match seat.hands.get? ss.game.activeHandIndex with
    | none => silentOut ss
    | some hand =>
      if ¬ canSplit hand then silentOut ss
      else if 4 ≤ seat.hands.length then errOut ss errMaxSplits
      else if seat.chips < hand.bet then errOut ss errNotEnoughSplit
      else
        match hand.cards.getLast? with
        | none => silentOut ss
        | some secondCard =>
          let (c1, g1) := drawCard fresh ss.game
          let (c2, g2) := drawCard fresh g1
          let hand' : Hand := { hand with
            cards := hand.cards.dropLast ++ [c1]
            isSplit := true }
          let newHand : Hand := { cards := [secondCard, c2], bet := hand.bet
                                  status := .playing, isDoubled := false, isSplit := true }
          let g3 := { g2 with seats := (modifyAt g2.seats si (fun s =>
            { s with
              chips := s.chips - hand.bet
              hands := (insertAt (modifyAt s.hands ss.game.activeHandIndex (fun _ => hand'))
                (ss.game.activeHandIndex + 1) newHand) })) }
          ⟨{ game := g3, pending := some .pTurnTimeout }, [], true⟩

/-- blackjack.ts `handleInsurance`. -/
def handleInsurance (accept : Bool) (pid : String) (ss : ServerState) : HandlerOut :=
  if ¬ ss.game.phase = .insurance then errOut ss errNoInsurance
  else
    match findSeatIdx pid ss.game.seats with
    | none => silentOut ss
    | some si =>
      match ss.game.seats.get? si with
      | none => silentOut ss
      | some seat =>
        if seat.bet ≤ 0 ∨ ¬ seat.insuranceBet = 0 then silentOut ss
        else
          let g := { ss.game with
            seats := modifyAt ss.game.seats si (insuranceDecision accept) }
          ⟨checkInsuranceComplete { ss with game := g }, [], true⟩

/-- blackjack.ts `onClose`: a departing seated player forfeits every playing
hand (forced bust), their seat is vacated, and — if they were the active
player — the turn advances immediately. -/
def onClose (fresh : Card × List Card) (pid : String) (ss : ServerState) : ServerState :=
  let afterSeat :=
    match findSeatIdx pid ss.game.seats with
    | none => ss
    | some si =>
      match ss.game.seats.get? si with
      | none => ss
      | some seat =>
        let bal := if seat.displayName = "" then ss.game.chipBalances
          else setBal seat.displayName seat.chips ss.game.chipBalances
        let wasActivePlayer := ss.game.phase = GamePhase.player_turn ∧
          ss.game.activePlayerIndex = Int.ofNat si
        let g1 := { ss.game with
          chipBalances := bal
          seats := (ss.game.seats.set si createEmptySeat) }
        if wasActivePlayer then
          let api := findNextActivePlayer (Int.ofNat si) g1.seats
          let g2 := { g1 with
            activePlayerIndex := api
            activeHandIndex := 0 }
          if api = -1 then startDealerTurn fresh { ss with game := g2 }
          else
            let ahi := match seatAt g2 api with
              | some ns => firstPlayingIdx ns.hands
              | none => 0
            { game := { g2 with activeHandIndex := ahi }, pending := some .pTurnTimeout }
        else { ss with game := g1 }
  let g' := { afterSeat.game with
    spectators := afterSeat.game.spectators.filter (fun p => decide (¬ p.1 = pid)) }
  checkGameState fresh { afterSeat with game := g' }

/-! ## Reachability: the event-driven transition system -/

/-- One event handled by the table actor: an inbound client intent, a
connection close, or the pending timer firing.  `fresh` is the (adversarially
chosen) outcome of any shuffle the event performs. -/
inductive Step : ServerState → ServerState → Prop where
  | join (fresh : Card × List Card) (i : Int) (name pid : String) (ss : ServerState) :
      Step ss (handleJoinSeat fresh i name pid ss).ss
  | leave (fresh : Card × List Card) (pid : String) (ss : ServerState) :
      Step ss (handleLeaveSeat fresh pid ss).ss
  | placeBet (amount : Int) (pid : String) (ss : ServerState) :
      Step ss (handlePlaceBet amount pid ss).ss
  | clearBet (pid : String) (ss : ServerState) :
      Step ss (handleClearBet pid ss).ss
  | hit (fresh : Card × List Card) (pid : String) (ss : ServerState) :
      Step ss (handleHit fresh pid ss).ss
  | stand (fresh : Card × List Card) (pid : String) (ss : ServerState) :
      Step ss (handleStand fresh pid ss).ss
  | double (fresh : Card × List Card) (pid : String) (ss : ServerState) :
      Step ss (handleDouble fresh pid ss).ss
  | split (fresh : Card × List Card) (pid : String) (ss : ServerState) :
      Step ss (handleSplit fresh pid ss).ss
  | surrender (fresh : Card × List Card) (pid : String) (ss : ServerState) :
      Step ss (handleSurrender fresh pid ss).ss
  | insurance (accept : Bool) (pid : String) (ss : ServerState) :
      Step ss (handleInsurance accept pid ss).ss
  | close (fresh : Card × List Card) (pid : String) (ss : ServerState) :
      Step ss (onClose fresh pid ss)
  | timer (fresh : Card × List Card) (ss : ServerState) :
      Step ss (fireTimer fresh ss)

/-- Reachability of a server state from another by handled events. -/
def Reachable : ServerState → ServerState → Prop :=
  Relation.ReflTransGen Step

/-! ## Spec-side definitions (transcribed from the specification's wording,
to be compared with the source-derived definitions above) -/

/-- The payout table exactly as the claim words it: 0 for busted or
surrendered; bet on blackjack push; `bet + floor(1.5 * bet)` for a player
blackjack alone; 0 for a dealer blackjack alone; `2 * bet` on dealer bust
(total over 21) or a strictly higher player total; bet on equal totals;
0 otherwise.  (`floor(1.5 * bet)` is `Int.fdiv (3 * bet) 2`.) -/
def payoutSpec (dealerHand : List Card) (h : Hand) : Int :=
  let playerBJ := h.status = HandStatus.blackjack
  let dealerBJ := isBlackjack dealerHand
  let dealerTotal := (calculateHandValue dealerHand).value
  let playerTotal := (calculateHandValue h.cards).value
  if h.status = .busted ∨ h.status = .surrendered then 0
  else if playerBJ ∧ dealerBJ then h.bet
  else if playerBJ then h.bet + Int.fdiv (3 * h.bet) 2
  else if dealerBJ then 0
  else if 21 < dealerTotal ∨ dealerTotal < playerTotal then 2 * h.bet
  else if playerTotal = dealerTotal then h.bet
  else 0

/-- The Hi-Lo table as the claim words it: +1 for ranks 2 through 6, 0 for
7 through 9, −1 for 10, J, Q, K and A. -/
def hiLoSpec (r : Rank) : Int :=
  if [Rank.two, .three, .four, .five, .six].contains r then 1
  else if [Rank.seven, .eight, .nine].contains r then 0
  else -1

/-! ## Concrete objects used by witnesses and counterexamples -/

/-- A join display name. -/
def nameAl : String := "Al"

/-- A connection id. -/
def pidP : String := "p"

/-- A shuffle-outcome parameter for events that never reshuffle. -/
def exFresh : Card × List Card := (⟨Suit.hearts, Rank.A, true⟩, [])

/-- The two-deck pile fed to `createShoe(2)`; the identity shuffle is one of
its possible outcomes, so this is a legitimate initial shoe. -/
def twoDecks : List Card := createDeck ++ createDeck

/-- The six cards dealt in the split scenario, in draw order: player 8♥,
dealer up-card 7♣, player 8♠, dealer hole card 9♣, then 8♦ and 8♣ for the
two split hands. -/
def pickedCards : List Card :=
  [⟨.hearts, .eight, true⟩, ⟨.clubs, .seven, true⟩, ⟨.spades, .eight, true⟩,
   ⟨.clubs, .nine, true⟩, ⟨.diamonds, .eight, true⟩, ⟨.clubs, .eight, true⟩]

/-- A two-deck shoe (a permutation of `twoDecks`, proved in the theorems
below) whose first six cards are `pickedCards`. -/
def splitShoe : List Card := pickedCards ++ createDeck.diff pickedCards ++ createDeck

/-- Betting-phase state reached by a single `join_seat`. -/
def exBetting : ServerState :=
  (handleJoinSeat exFresh 0 nameAl pidP (serverInit twoDecks)).ss

/-- State after `place_bet` with the (unvalidated) amount −50. -/
def exNegBet : ServerState := (handlePlaceBet (-50) pidP exBetting).ss

/-- Betting-phase state of the split scenario. -/
def exSplit1 : ServerState :=
  (handleJoinSeat exFresh 0 nameAl pidP (serverInit splitShoe)).ss

/-- A 100-chip bet placed. -/
def exSplit2 : ServerState := (handlePlaceBet 100 pidP exSplit1).ss

/-- Betting timer fired: bets committed, initial cards dealt (the seat holds
8♥ 8♠ against a dealer 7♣). -/
def exSplit3 : ServerState := fireTimer exFresh exSplit2

/-- Dealing timer fired: player turns begin, seat 0 hand 0 active. -/
def exSplit4 : ServerState := fireTimer exFresh exSplit3

/-- The `split` intent handled: seat 0 now holds two hands, 8♥ 8♦ and
8♠ 8♣, both `playing` and both marked `isSplit`. -/
def exSplit5 : ServerState := (handleSplit exFresh pidP exSplit4).ss

/-- A natural blackjack hand carrying a 100-chip bet. -/
def exBJHand : Hand :=
  { cards := [⟨.spades, .A, true⟩, ⟨.spades, .K, true⟩], bet := 100,
    status := .blackjack, isDoubled := false, isSplit := false }

/-- A dealer 17 without blackjack. -/
def exDealer17 : List Card := [⟨.hearts, .ten, true⟩, ⟨.diamonds, .seven, true⟩]

/-- A dealer blackjack, fully revealed. -/
def exDealerBJ : List Card := [⟨.diamonds, .K, true⟩, ⟨.diamonds, .A, true⟩]

/-- Dealer ace-six: the soft 17. -/
def soft17Hand : List Card := [⟨.hearts, .A, true⟩, ⟨.hearts, .six, true⟩]

/-- A dealer-turn state whose dealer hand is the soft 17. -/
def exSoft17SS : ServerState :=
  { game := { createInitialGameState [] with
      phase := GamePhase.dealer_turn
      dealerHand := soft17Hand }
    pending := none }

/-- A ten-up dealer hand whose hole ace is still face down. -/
def exHoleDownBJ : List Card := [⟨.spades, .K, true⟩, ⟨.diamonds, .A, false⟩]

/-- Five low cards (2,3,4,5,6) in draw order. -/
def lowShoe : List Card :=
  [⟨.hearts, .two, true⟩, ⟨.hearts, .three, true⟩, ⟨.hearts, .four, true⟩,
   ⟨.hearts, .five, true⟩, ⟨.hearts, .six, true⟩]

/-- Five high cards (10,J,Q,K,A) in draw order. -/
def highShoe : List Card :=
  [⟨.hearts, .ten, true⟩, ⟨.hearts, .J, true⟩, ⟨.hearts, .Q, true⟩,
   ⟨.hearts, .K, true⟩, ⟨.hearts, .A, true⟩]

/-! ## Helper lemmas -/

theorem foldl_add_map (f : α → Int) (l : List α) (a : Int) :
    l.foldl (fun c h => c + f h) a = a + (l.map f).sum := by
  induction l generalizing a with
  | nil => simp
  | cons x xs ih => simp [ih, add_assoc]

theorem drawCard_seats (fresh : Card × List Card) (g : GameState) :
    ((drawCard fresh g).2).seats = g.seats := by
  cases h : g.shoe <;> simp [drawCard, h, drawStep, reshuffleShoe]

theorem drawCard_dealerHand (fresh : Card × List Card) (g : GameState) :
    ((drawCard fresh g).2).dealerHand = g.dealerHand := by
  cases h : g.shoe <;> simp [drawCard, h, drawStep, reshuffleShoe]

theorem foldl_tallyStep_filter (l : List Card) (acc : Nat × Nat) :
    (l.filter (fun c => c.faceUp)).foldl tallyStep acc = l.foldl tallyStep acc := by
  induction l generalizing acc with
  | nil => rfl
  | cons c cs ih =>
    by_cases hc : c.faceUp
    · simp [List.filter_cons, hc, ih]
    · have hstep : tallyStep acc c = acc := by simp [tallyStep, hc]
      simp [List.filter_cons, hc, ih, hstep]

/-! ## C1: payout table -/

/-- C1: for every hand settled in the payout phase the chips credited to its
seat are exactly the claim's table (`settleHand` coincides with `payoutSpec`
everywhere, and the per-seat settlement adds exactly the per-hand payouts);
in particular a 100-chip blackjack against a dealer 17 returns 250 and a
blackjack-against-blackjack push returns exactly 100. -/
theorem c1_payout_table :
    (∀ dealerHand h, settleHand dealerHand h = payoutSpec dealerHand h) ∧
    (∀ dealerHand s, (settleSeat dealerHand s).chips
        = s.chips + ((s.hands.map (settleHand dealerHand)).sum)) ∧
    settleHand exDealer17 exBJHand = 250 ∧
    settleHand exDealerBJ exBJHand = 100 := by
  refine ⟨?_, ?_, by decide, by decide⟩
  · intro d h
    simp only [settleHand, payoutSpec]
    split_ifs <;> first | rfl | tauto
  · intro d s
    simp [settleSeat, foldl_add_map]

/-! ## C4: dealer stands on every 17 -/

/-- C4: during dealer_turn the dealer draws another card iff the computed
total is strictly below 17 (`playDealerHand` stands — scheduling payouts,
hand unchanged — exactly when `17 ≤ value`, and appends one drawn card
otherwise); a soft 17 (ace plus six) computes to 17 and therefore stands. -/
theorem c4_dealer_stands_on_17 :
    (∀ fresh ss, 17 ≤ (calculateHandValue ss.game.dealerHand).value →
        playDealerHand fresh ss = { ss with pending := some .pCalculatePayouts }) ∧
    (∀ fresh ss, (calculateHandValue ss.game.dealerHand).value < 17 →
        (playDealerHand fresh ss).game.dealerHand
          = ss.game.dealerHand ++ [(drawCard fresh ss.game).1]) ∧
    calculateHandValue soft17Hand = ⟨17, true⟩ ∧
    (∀ fresh ss, ss.game.dealerHand = soft17Hand →
        playDealerHand fresh ss = { ss with pending := some .pCalculatePayouts }) := by
  refine ⟨?_, ?_, by decide, ?_⟩
  · intro fresh ss h
    simp [playDealerHand, h]
  · intro fresh ss h
    simp only [playDealerHand, if_neg (by omega : ¬ 17 ≤ (calculateHandValue ss.game.dealerHand).value)]
    simp [drawCard_dealerHand]
  · intro fresh ss h
    simp [playDealerHand, h]
    decide

/-- Witness for C4 at the concrete soft-17 state. -/
theorem c4_dealer_stands_on_17_witness :
    exSoft17SS.game.dealerHand = soft17Hand ∧
    playDealerHand exFresh exSoft17SS = { exSoft17SS with pending := some .pCalculatePayouts } :=
  ⟨rfl, c4_dealer_stands_on_17.2.2.2 exFresh exSoft17SS rfl⟩

/-! ## C7: Hi-Lo running count -/

/-- C7: every draw moves `runningCount` by the Hi-Lo value of the drawn rank
(+1 for 2-6, 0 for 7-9, −1 for ten-value and ace, as `hiLoSpec` tabulates
the claim); drawing 2,3,4,5,6 from count 0 yields +5 and 10,J,Q,K,A yields
−5; every reshuffle resets the count to 0. -/
theorem c7_running_count :
    (∀ (fresh : Card × List Card) (g : GameState) (c : Card) (rest : List Card),
        ((drawCard fresh { g with shoe := c :: rest }).2).runningCount
          = g.runningCount + hiLoDelta c.rank) ∧
    (∀ r, hiLoDelta r = hiLoSpec r) ∧
    ((drawN exFresh 5 (createInitialGameState lowShoe)).2).runningCount = 5 ∧
    ((drawN exFresh 5 (createInitialGameState highShoe)).2).runningCount = -5 ∧
    (∀ fresh g, (reshuffleShoe fresh g).runningCount = 0) := by
  refine ⟨fun _ _ _ _ => rfl, ?_, by decide, by decide, fun _ _ => rfl⟩
  intro r
  cases r <;> rfl

/-! ## C10: face-up filtering vs blackjack detection -/

/-- C10: `calculateHandValue` counts only face-up cards (it equals itself on
the face-up filtration, so a face-down hole card contributes 0 until it is
flipped), while `isBlackjack` ignores `faceUp` entirely (it is invariant
under any reassignment of the flags and holds iff the two cards comprise an
ace and a ten-value card); hence the post-deal shortcut detects a dealer
blackjack while the hole card is still face down, as the concrete
ten-up/ace-down hand shows. -/
theorem c10_face_up_visibility :
    (∀ cards, calculateHandValue cards = calculateHandValue (cards.filter (fun c => c.faceUp))) ∧
    (∀ cards, isBlackjack cards = true ↔
        (cards.length = 2 ∧ (∃ c ∈ cards, c.rank = .A) ∧ ∃ c ∈ cards, isTenRank c.rank = true)) ∧
    (∀ c1 c2 b1 b2, isBlackjack [{ c1 with faceUp := b1 }, { c2 with faceUp := b2 }]
        = isBlackjack [c1, c2]) ∧
    isBlackjack exHoleDownBJ = true ∧
    (calculateHandValue exHoleDownBJ).value = 10 ∧
    (calculateHandValue (flipHole exHoleDownBJ)).value = 21 := by
  refine ⟨?_, ?_, fun _ _ _ _ => rfl, by decide, by decide, by decide⟩
  · intro cards
    simp [calculateHandValue, foldl_tallyStep_filter]
  · intro cards
    simp only [isBlackjack, List.any_eq_true, Bool.and_eq_true, decide_eq_true_eq]
    tauto

/-! ## C2: the sign of a bet amount is never validated -/

/-- C2 (refuted; code bug): from a legitimate initial shoe, a join followed
by `place_bet` with amount −50 is accepted by `handlePlaceBet` — the guard
only checks `bet + amount > chips` — and leaves the reachable betting-phase
state with `seat.bet = −50 < 0`, violating the claimed `bet ≥ 0` invariant. -/
theorem c2_negative_bet_reachable :
    Reachable (serverInit twoDecks) exNegBet ∧
    ((exNegBet.game.seats.get? 0).map (·.bet)) = some (-50) ∧
    exNegBet.game.phase = GamePhase.betting := by
  refine ⟨?_, by decide, by decide⟩
  exact Relation.ReflTransGen.tail
    (Relation.ReflTransGen.single (Step.join exFresh 0 nameAl pidP (serverInit twoDecks)))
    (Step.placeBet (-50) pidP exBetting)

/-! ## C5: insurance staking and settlement -/

/-- A seat with a 200-chip main bet and 1000 chips, insurance undecided. -/
def exSeat200 : Seat :=
  { playerId := some pidP, displayName := nameAl, chips := 1000, bet := 200,
    lastBet := 0, hands := [], status := .playing, insuranceBet := 0 }

/-- An insurance-phase state in which every betting seat has decided and the
dealer holds a (hole-card-down) blackjack. -/
def exInsuranceSS : ServerState :=
  { game := { createInitialGameState [] with
      phase := GamePhase.insurance
      dealerHand := exHoleDownBJ
      seats := insuranceDecision true exSeat200 :: List.replicate 5 createEmptySeat }
    pending := some .pInsuranceTimeout }

/-- C5: the insurance stake is `floor(bet / 2)`, deducted only when accepted
with sufficient chips (otherwise recorded as a decline with chips untouched);
at insurance resolution — before any final payout, which is merely scheduled
— a dealer blackjack credits every staked seat exactly three times its stake,
and without a dealer blackjack no chips are credited (the stake is
forfeited).  Concretely, bet 200 stakes 100 and is credited 300. -/
theorem c5_insurance_settlement :
    (∀ s : Seat, Int.fdiv s.bet 2 ≤ s.chips →
        insuranceDecision true s
          = { s with chips := s.chips - Int.fdiv s.bet 2, insuranceBet := Int.fdiv s.bet 2 }) ∧
    (∀ s : Seat, s.chips < Int.fdiv s.bet 2 →
        insuranceDecision true s = { s with insuranceBet := -1 }) ∧
    (∀ s : Seat, insuranceDecision false s = { s with insuranceBet := -1 }) ∧
    (∀ s : Seat, 0 < s.insuranceBet →
        insuranceSettleBJ s = { s with chips := s.chips + 3 * s.insuranceBet }) ∧
    (∀ s : Seat, (insuranceClearDecline s).chips = s.chips) ∧
    (∀ ss : ServerState,
        (ss.game.seats.any (fun s =>
          s.playerId.isSome && decide (0 < s.bet) && decide (s.insuranceBet = 0))) = false →
        isBlackjack ss.game.dealerHand = true →
        checkInsuranceComplete ss
          = { game := { ss.game with
                phase := .dealer_turn
                dealerHand := flipHole ss.game.dealerHand
                seats := ss.game.seats.map insuranceSettleBJ }
              pending := some .pCalculatePayouts }) ∧
    (insuranceDecision true exSeat200).chips = 900 ∧
    (insuranceDecision true exSeat200).insuranceBet = 100 ∧
    (insuranceSettleBJ (insuranceDecision true exSeat200)).chips = 1200 := by
  refine ⟨?_, ?_, ?_, ?_, ?_, ?_, by decide, by decide, by decide⟩
  · intro s h
    simp [insuranceDecision, h]
  · intro s h
    simp [insuranceDecision, not_le.mpr h]
  · intro s
    rfl
  · intro s h
    simp [insuranceSettleBJ, h]
  · intro s
    by_cases h : s.insuranceBet = -1 <;> simp [insuranceClearDecline, h]
  · intro ss h1 h2
    simp [checkInsuranceComplete, h1, h2]

/-- Witness for C5: the 200-bet seat stakes 100; resolving the concrete
all-decided dealer-blackjack insurance state credits the stake 3x and
schedules the payout phase. -/
theorem c5_insurance_settlement_witness :
    insuranceDecision true exSeat200
      = { exSeat200 with chips := 900, insuranceBet := 100 } ∧
    checkInsuranceComplete exInsuranceSS
      = { game := { exInsuranceSS.game with
            phase := .dealer_turn
            dealerHand := flipHole exInsuranceSS.game.dealerHand
            seats := exInsuranceSS.game.seats.map insuranceSettleBJ }
          pending := some .pCalculatePayouts } :=
  ⟨c5_insurance_settlement.1 exSeat200 (by decide),
   c5_insurance_settlement.2.2.2.2.2.1 exInsuranceSS (by decide) (by decide)⟩

/-! ## C6: cut-card discipline -/

/-- C6: drawing from a non-empty shoe only pops the head — it never rebuilds
the shoe — and sets `needsReshuffle` as soon as the remainder is at or below
the cut-card index; any draw sequence that does not exhaust the shoe leaves
exactly the dropped suffix (no mid-round reshuffle); a draw from an empty
shoe rebuilds immediately; and the flag is acted on exactly at the round
boundary (`startBettingPhase`). -/
theorem c6_cut_card_discipline :
    (∀ (fresh : Card × List Card) (g : GameState) (c : Card) (rest : List Card),
        rest.length ≤ g.cutCardIndex →
        ((drawCard fresh { g with shoe := c :: rest }).2).needsReshuffle = true) ∧
    (∀ (fresh : Card × List Card) (g : GameState) (c : Card) (rest : List Card),
        ((drawCard fresh { g with shoe := c :: rest }).2).shoe = rest) ∧
    (∀ (fresh : Card × List Card) (n : Nat) (g : GameState), n ≤ g.shoe.length →
        ((drawN fresh n g).2).shoe = g.shoe.drop n) ∧
    (∀ (fresh : Card × List Card) (g : GameState),
        ((drawCard fresh { g with shoe := ([] : List Card) }).2).shoe = fresh.2) ∧
    (∀ (fresh : Card × List Card) (ss : ServerState), ss.game.needsReshuffle = true →
        (startBettingPhase fresh ss).game.shoe = fresh.1 :: fresh.2 ∧
        (startBettingPhase fresh ss).game.needsReshuffle = false) ∧
    (∀ (fresh : Card × List Card) (ss : ServerState), ss.game.needsReshuffle = false →
        (startBettingPhase fresh ss).game.shoe = ss.game.shoe) := by
  refine ⟨?_, fun _ _ _ _ => rfl, ?_, fun _ _ => rfl, ?_, ?_⟩
  · intro fresh g c rest h
    simp [drawCard, drawStep, h]
  · intro fresh n
    induction n with
    | zero => intro g _; simp [drawN]
    | succ m ih =>
      intro g h
      cases hs : g.shoe with
      | nil => simp [hs] at h
      | cons c rest =>
        have hg : drawCard fresh g = drawStep c rest g := by
          simp [drawCard, hs]
        have hlen : m ≤ rest.length := by
          rw [hs] at h
          simpa using h
        have := ih { g with
          shoe := rest
          runningCount := g.runningCount + hiLoDelta c.rank
          needsReshuffle := if rest.length ≤ g.cutCardIndex then true else g.needsReshuffle }
          (by simpa using hlen)
        simp only [drawN, hg, drawStep] at *
        simpa [hs] using this
  · intro fresh ss h
    constructor <;> simp [startBettingPhase, h, reshuffleShoe]
  · intro fresh ss h
    simp [startBettingPhase, h]

/-- Witness for C6 on concrete data: drawing once from the five-card low
shoe (cut index 3) sets the flag, and two draws drop exactly two cards. -/
theorem c6_cut_card_discipline_witness :
    ((drawCard exFresh { createInitialGameState twoDecks with
        shoe := Card.mk .hearts .two true :: lowShoe.tail }).2).needsReshuffle = true ∧
    ((drawN exFresh 2 (createInitialGameState lowShoe)).2).shoe
      = (createInitialGameState lowShoe).shoe.drop 2 :=
  ⟨c6_cut_card_discipline.1 exFresh (createInitialGameState twoDecks)
      (Card.mk .hearts .two true) lowShoe.tail (by decide),
   c6_cut_card_discipline.2.2.1 exFresh 2 (createInitialGameState lowShoe) (by decide)⟩

/-! ## C8: rejected intents -/

/-- C8 (refuted as stated): a seated player's `hit` in the betting phase is
rejected without any error reply at all — `handleHit` returns the state
unchanged with an empty reply list — so "an error is sent to the offending
connection" fails for the silent turn-action guards (the state, however, is
indeed unchanged). -/
theorem c8_silent_rejection :
    Reachable (serverInit twoDecks) exBetting ∧
    ¬ exBetting.game.phase = GamePhase.player_turn ∧
    (findSeatIdx pidP exBetting.game.seats).isSome = true ∧
    handleHit exFresh pidP exBetting = ⟨exBetting, [], false⟩ := by
  refine ⟨?_, by decide, by decide, by decide⟩
  exact Relation.ReflTransGen.single (Step.join exFresh 0 nameAl pidP (serverInit twoDecks))

/-! ## C3 and C9: the split scenario -/

/-- The five-event trace reaching `exSplit5`: join, bet 100, betting timer,
dealing timer, split. -/
theorem reachable_exSplit5 : Reachable (serverInit splitShoe) exSplit5 :=
  Relation.ReflTransGen.tail (Relation.ReflTransGen.tail (Relation.ReflTransGen.tail
    (Relation.ReflTransGen.tail
      (Relation.ReflTransGen.single (Step.join exFresh 0 nameAl pidP (serverInit splitShoe)))
      (Step.placeBet 100 pidP exSplit1))
    (Step.timer exFresh exSplit2))
    (Step.timer exFresh exSplit3))
    (Step.split exFresh pidP exSplit4)

/-- C9 (first part refuted): from a legitimate initial shoe (a permutation
of the two decks `createShoe(2)` shuffles), a reachable state has TWO hands
of seat 0 in status `playing` simultaneously — `handleSplit` leaves the
original hand `playing` and inserts a sibling that is also `playing`. -/
theorem c9_two_playing_hands :
    splitShoe.Perm (createDeck ++ createDeck) ∧
    Reachable (serverInit splitShoe) exSplit5 ∧
    ((exSplit5.game.seats.get? 0).map
      (fun s => (s.hands.filter (fun h => decide (h.status = .playing))).length)) = some 2 :=
  ⟨by decide, reachable_exSplit5, by decide⟩

/-- C3 (refuted): in the reachable post-split state the active hand is again
a two-card pair of eights, the seat holds 2 < 4 hands and ample chips — the
claim's conditions for a further split — yet `handleSplit` is a silent
no-op, because the first split marked the surviving hand `isSplit` and
`canSplit` rejects it; 3 splits (4 hands) are unreachable. -/
theorem c3_no_resplit :
    Reachable (serverInit splitShoe) exSplit5 ∧
    (((exSplit5.game.seats.get? 0).bind
        (fun s => s.hands.get? exSplit5.game.activeHandIndex)).map
      (fun h => (h.cards.map (fun c => c.rank), h.bet, h.status)))
      = some ([Rank.eight, Rank.eight], 100, HandStatus.playing) ∧
    ((exSplit5.game.seats.get? 0).map
      (fun s => (s.hands.length, decide (100 ≤ s.chips)))) = some (2, true) ∧
    handleSplit exFresh pidP exSplit5 = ⟨exSplit5, [], false⟩ :=
  ⟨reachable_exSplit5, by decide, by decide, by decide⟩

/-- The game state a legal split produces (spec side of the amended C3):
chips down by one hand bet, the original hand keeps its first card and draws
the first fresh card, the sibling holding the moved second card and the
second fresh card is inserted immediately after, both marked `isSplit`. -/
def splitOutcome (fresh : Card × List Card) (ss : ServerState) (si : Nat)
    (hand : Hand) (a b : Card) : GameState :=
  let p1 := drawCard fresh ss.game
  let p2 := drawCard fresh p1.2
  { p2.2 with seats := (modifyAt p2.2.seats si (fun s =>
      { s with
        chips := s.chips - hand.bet
        hands := (insertAt
          (modifyAt s.hands ss.game.activeHandIndex
            (fun _ => { hand with cards := [a, p1.1], isSplit := true }))
          (ss.game.activeHandIndex + 1)
          { cards := [b, p2.1], bet := hand.bet, status := .playing,
            isDoubled := false, isSplit := true }) })) }

/-- C3 as amended: a two-card pair with the guards satisfied may split, and
the split behaves exactly as the claim's mechanics describe (`splitOutcome`);
but both resulting hands are marked `isSplit`, and `canSplit` rejects every
`isSplit` hand, so a seat can split at most once (the 4-hand cap in the code
never binds). -/
theorem c3_split_at_most_once :
    (∀ (fresh : Card × List Card) (pid : String) (ss : ServerState) (si : Nat)
        (seat : Seat) (hand : Hand) (a b : Card),
      ss.game.phase = GamePhase.player_turn →
      findSeatIdx pid ss.game.seats = some si →
      Int.ofNat si = ss.game.activePlayerIndex →
      ss.game.seats.get? si = some seat →
      seat.hands.get? ss.game.activeHandIndex = some hand →
      canSplit hand = true →
      seat.hands.length < 4 →
      hand.bet ≤ seat.chips →
      hand.cards = [a, b] →
      handleSplit fresh pid ss =
        ⟨{ game := splitOutcome fresh ss si hand a b, pending := some .pTurnTimeout },
         [], true⟩) ∧
    (∀ h : Hand, h.isSplit = true → canSplit h = false) := by
  constructor
  · intro fresh pid ss si seat hand a b h1 h2 h3 h4 h5 h6 h7 h8 h9
    have h5' : seat.hands[ss.game.activeHandIndex]? = some hand := by
      simpa using h5
    have hcap : ¬ 4 ≤ seat.hands.length := by omega
    have hchips : ¬ seat.chips < hand.bet := not_lt.mpr h8
    simp only [handleSplit, activeSeatOf, h1, h2, h3, h4, h5, h5', h6, h9, splitOutcome]
    simp [hcap, hchips, h9, h5', h6]
  · intro h hsplit
    simp [canSplit, hsplit]

/-- The pair of eights held by seat 0 when the split intent arrives. -/
def exHand88 : Hand :=
  { cards := [⟨.hearts, .eight, true⟩, ⟨.spades, .eight, true⟩], bet := 100,
    status := .playing, isDoubled := false, isSplit := false }

/-- Seat 0 of `exSplit4`. -/
def exSeat88 : Seat :=
  { playerId := some pidP, displayName := nameAl, chips := 9900, bet := 100,
    lastBet := 100, hands := [exHand88], status := .playing, insuranceBet := 0 }

/-- Witness for C3: the amended theorem applied at the concrete pre-split
state, plus `canSplit` rejecting a concrete split product. -/
theorem c3_split_at_most_once_witness :
    handleSplit exFresh pidP exSplit4 =
      ⟨{ game := splitOutcome exFresh exSplit4 0 exHand88
            ⟨.hearts, .eight, true⟩ ⟨.spades, .eight, true⟩
         pending := some .pTurnTimeout }, [], true⟩ ∧
    canSplit { exHand88 with isSplit := true } = false :=
  ⟨c3_split_at_most_once.1 exFresh pidP exSplit4 0 exSeat88 exHand88
      ⟨.hearts, .eight, true⟩ ⟨.spades, .eight, true⟩
      (by decide) (by decide) (by decide) (by decide) (by decide)
      (by decide) (by decide) (by decide) rfl,
   c3_split_at_most_once.2 { exHand88 with isSplit := true } rfl⟩

/-! ## C8 amended: rejected intents never change the state -/

theorem joinSeat_reject_unchanged (fresh : Card × List Card) (i : Int) (n pid : String)
    (ss : ServerState) (h : (handleJoinSeat fresh i n pid ss).broadcasted = false) :
    (handleJoinSeat fresh i n pid ss).ss = ss := by
  revert h
  simp only [handleJoinSeat]
  repeat' split
  all_goals intro h
  all_goals first | rfl | simp [silentOut, errOut] at h

theorem leaveSeat_reject_unchanged (fresh : Card × List Card) (pid : String)
    (ss : ServerState) (h : (handleLeaveSeat fresh pid ss).broadcasted = false) :
    (handleLeaveSeat fresh pid ss).ss = ss := by
  revert h
  simp only [handleLeaveSeat]
  repeat' split
  all_goals intro h
  all_goals first | rfl | simp [silentOut, errOut] at h

theorem placeBet_reject_unchanged (amount : Int) (pid : String) (ss : ServerState)
    (h : (handlePlaceBet amount pid ss).broadcasted = false) :
    (handlePlaceBet amount pid ss).ss = ss := by
  revert h
  simp only [handlePlaceBet]
  repeat' split
  all_goals intro h
  all_goals first | rfl | simp [silentOut, errOut] at h

theorem clearBet_reject_unchanged (pid : String) (ss : ServerState)
    (h : (handleClearBet pid ss).broadcasted = false) :
    (handleClearBet pid ss).ss = ss := by
  revert h
  simp only [handleClearBet]
  repeat' split
  all_goals intro h
  all_goals first | rfl | simp [silentOut, errOut] at h

theorem hit_reject_unchanged (fresh : Card × List Card) (pid : String) (ss : ServerState)
    (h : (handleHit fresh pid ss).broadcasted = false) :
    (handleHit fresh pid ss).ss = ss := by
  revert h
  simp only [handleHit]
  repeat' split
  all_goals intro h
  all_goals first | rfl | simp [silentOut, errOut] at h

theorem stand_reject_unchanged (fresh : Card × List Card) (pid : String) (ss : ServerState)
    (h : (handleStand fresh pid ss).broadcasted = false) :
    (handleStand fresh pid ss).ss = ss := by
  revert h
  simp only [handleStand]
  repeat' split
  all_goals intro h
  all_goals first | rfl | simp [silentOut, errOut] at h

theorem double_reject_unchanged (fresh : Card × List Card) (pid : String) (ss : ServerState)
    (h : (handleDouble fresh pid ss).broadcasted = false) :
    (handleDouble fresh pid ss).ss = ss := by
  revert h
  simp only [handleDouble]
  repeat' split
  all_goals intro h
  all_goals first | rfl | simp [silentOut, errOut] at h

theorem split_reject_unchanged (fresh : Card × List Card) (pid : String) (ss : ServerState)
    (h : (handleSplit fresh pid ss).broadcasted = false) :
    (handleSplit fresh pid ss).ss = ss := by
  revert h
  simp only [handleSplit]
  repeat' split
  all_goals intro h
  all_goals first | rfl | simp [silentOut, errOut] at h

theorem surrender_reject_unchanged (fresh : Card × List Card) (pid : String) (ss : ServerState)
    (h : (handleSurrender fresh pid ss).broadcasted = false) :
    (handleSurrender fresh pid ss).ss = ss := by
  revert h
  simp only [handleSurrender]
  repeat' split
  all_goals intro h
  all_goals first | rfl | simp [silentOut, errOut] at h

theorem insurance_reject_unchanged (accept : Bool) (pid : String) (ss : ServerState)
    (h : (handleInsurance accept pid ss).broadcasted = false) :
    (handleInsurance accept pid ss).ss = ss := by
  revert h
  simp only [handleInsurance]
  repeat' split
  all_goals intro h
  all_goals first | rfl | simp [silentOut, errOut] at h

/-- C8 as amended: a rejected intent — any handler run that does not
broadcast, which is exactly every guard failure — leaves the server state
(seats, hands, chips, bets, shoe, phase, timer slot) unchanged, and anything
it sends goes only to the offending connection; guard failures of `join_seat`
and `place_bet` (and the wrong-phase insurance) answer with a specific
error, while the turn-action guards reject silently, without any error
reply (samples: wrong-phase `hit` and `stand`). -/
theorem c8_reject_no_state_change :
    (∀ (fresh : Card × List Card) (i : Int) (n pid : String) (ss : ServerState),
        (handleJoinSeat fresh i n pid ss).broadcasted = false →
        (handleJoinSeat fresh i n pid ss).ss = ss) ∧
    (∀ (fresh : Card × List Card) (pid : String) (ss : ServerState),
        (handleLeaveSeat fresh pid ss).broadcasted = false →
        (handleLeaveSeat fresh pid ss).ss = ss) ∧
    (∀ (amount : Int) (pid : String) (ss : ServerState),
        (handlePlaceBet amount pid ss).broadcasted = false →
        (handlePlaceBet amount pid ss).ss = ss) ∧
    (∀ (pid : String) (ss : ServerState),
        (handleClearBet pid ss).broadcasted = false → (handleClearBet pid ss).ss = ss) ∧
    (∀ (fresh : Card × List Card) (pid : String) (ss : ServerState),
        (handleHit fresh pid ss).broadcasted = false → (handleHit fresh pid ss).ss = ss) ∧
    (∀ (fresh : Card × List Card) (pid : String) (ss : ServerState),
        (handleStand fresh pid ss).broadcasted = false → (handleStand fresh pid ss).ss = ss) ∧
    (∀ (fresh : Card × List Card) (pid : String) (ss : ServerState),
        (handleDouble fresh pid ss).broadcasted = false → (handleDouble fresh pid ss).ss = ss) ∧
    (∀ (fresh : Card × List Card) (pid : String) (ss : ServerState),
        (handleSplit fresh pid ss).broadcasted = false → (handleSplit fresh pid ss).ss = ss) ∧
    (∀ (fresh : Card × List Card) (pid : String) (ss : ServerState),
        (handleSurrender fresh pid ss).broadcasted = false →
        (handleSurrender fresh pid ss).ss = ss) ∧
    (∀ (accept : Bool) (pid : String) (ss : ServerState),
        (handleInsurance accept pid ss).broadcasted = false →
        (handleInsurance accept pid ss).ss = ss) ∧
    (∀ (fresh : Card × List Card) (i : Int) (n pid : String) (ss : ServerState),
        sanitizeInput n 12 = "" → handleJoinSeat fresh i n pid ss = errOut ss errInvalidName) ∧
    (∀ (amount : Int) (pid : String) (ss : ServerState),
        ¬ ss.game.phase = .betting → handlePlaceBet amount pid ss = errOut ss errCannotBet) ∧
    (∀ (accept : Bool) (pid : String) (ss : ServerState),
        ¬ ss.game.phase = .insurance →
        handleInsurance accept pid ss = errOut ss errNoInsurance) ∧
    (∀ (fresh : Card × List Card) (pid : String) (ss : ServerState),
        ¬ ss.game.phase = .player_turn → handleHit fresh pid ss = silentOut ss) ∧
    (∀ (fresh : Card × List Card) (pid : String) (ss : ServerState),
        ¬ ss.game.phase = .player_turn → handleStand fresh pid ss = silentOut ss) := by
  refine ⟨joinSeat_reject_unchanged, leaveSeat_reject_unchanged, placeBet_reject_unchanged,
    clearBet_reject_unchanged, hit_reject_unchanged, stand_reject_unchanged,
    double_reject_unchanged, split_reject_unchanged, surrender_reject_unchanged,
    insurance_reject_unchanged, ?_, ?_, ?_, ?_, ?_⟩
  · intro fresh i n pid ss h
    simp [handleJoinSeat, h]
  · intro amount pid ss h
    simp [handlePlaceBet, h]
  · intro accept pid ss h
    simp [handleInsurance, h]
  · intro fresh pid ss h
    simp [handleHit, activeSeatOf, h]
  · intro fresh pid ss h
    simp [handleStand, activeSeatOf, h]

/-- Witness for C8: a wrong-phase `hit` and `place_bet` with an absurd
amount in the waiting phase both leave the concrete state untouched. -/
theorem c8_reject_no_state_change_witness :
    (handleHit exFresh pidP exBetting).ss = exBetting ∧
    handlePlaceBet 7 pidP (serverInit twoDecks) = errOut (serverInit twoDecks) errCannotBet :=
  ⟨c8_reject_no_state_change.2.2.2.2.1 exFresh pidP exBetting (by decide),
   c8_reject_no_state_change.2.2.2.2.2.2.2.2.2.2.2.1 7 pidP (serverInit twoDecks) (by decide)⟩

/-! ## C9 amended: status transitions -/

/-- The status of hand `j` of seat `i` (it depends only on the hands lists). -/
def handStatusAt (ss : ServerState) (i j : Nat) : Option HandStatus :=
  ((ss.game.seats.get? i).map (fun s => s.hands)).bind
    (fun hs => (hs.get? j).map (fun h => h.status))

/-- Two server states whose seats carry the same hands lists everywhere. -/
def SameHands (s s' : ServerState) : Prop :=
  ∀ i, ((s'.game.seats.get? i).map (fun x => x.hands))
    = ((s.game.seats.get? i).map (fun x => x.hands))

theorem sameHands_handStatusAt {s s' : ServerState} (h : SameHands s s') (i j : Nat) :
    handStatusAt s' i j = handStatusAt s i j := by
  unfold handStatusAt
  rw [h i]

theorem sameHands_trans {s t u : ServerState} (h1 : SameHands s t) (h2 : SameHands t u) :
    SameHands s u := by
  intro i
  rw [h2 i, h1 i]

theorem sameHands_of_seats_eq {s s' : ServerState}
    (h : s'.game.seats = s.game.seats) : SameHands s s' := by
  intro i
  rw [h]

theorem sameHands_map {s s' : ServerState} (f : Seat → Seat)
    (hf : ∀ x, (f x).hands = x.hands) (h : s'.game.seats = s.game.seats.map f) :
    SameHands s s' := by
  intro i
  rw [h, List.get?_map]
  cases s.game.seats.get? i <;> simp [hf]

theorem sameHands_modifyAt {s s' : ServerState} (k : Nat) (f : Seat → Seat)
    (hf : ∀ x, (f x).hands = x.hands) (h : s'.game.seats = modifyAt s.game.seats k f) :
    SameHands s s' := by
  intro i
  rw [h, modifyAt_get?]
  by_cases hik : i = k
  · simp only [hik, if_pos rfl]
    cases s.game.seats.get? k <;> simp [hf]
  · simp [hik]

theorem sameHands_calculatePayouts (ss : ServerState) :
    SameHands ss (calculatePayouts ss) := by
  apply sameHands_map (fun s => if s.playerId.isSome then settleSeat ss.game.dealerHand s else s)
  · intro x
    by_cases hx : x.playerId.isSome <;> simp [hx, settleSeat]
  · rfl

theorem sameHands_playDealerHand (fresh : Card × List Card) (ss : ServerState) :
    SameHands ss (playDealerHand fresh ss) := by
  unfold playDealerHand
  split
  · exact sameHands_of_seats_eq rfl
  · exact sameHands_of_seats_eq (drawCard_seats fresh ss.game)

theorem sameHands_startDealerTurn (fresh : Card × List Card) (ss : ServerState) :
    SameHands ss (startDealerTurn fresh ss) := by
  unfold startDealerTurn
  dsimp only
  split
  · exact sameHands_trans (sameHands_of_seats_eq rfl) (sameHands_calculatePayouts _)
  · exact sameHands_trans (sameHands_of_seats_eq rfl) (sameHands_playDealerHand fresh _)

/-- Any state whose seats come from a `setSeatAt` that preserves hands has
the same hands as the original. -/
theorem sameHands_via_setSeatAt (ss ss' : ServerState) (k : Int) (f : Seat → Seat)
    (hf : ∀ x, (f x).hands = x.hands)
    (h : ss'.game.seats = (setSeatAt ss.game k f).seats) : SameHands ss ss' := by
  intro i
  rw [h]
  unfold setSeatAt
  split
  · rfl
  · dsimp only
    rw [modifyAt_get?]
    by_cases hik : i = k.toNat
    · simp only [hik, if_pos rfl]
      cases ss.game.seats.get? k.toNat <;> simp [hf]
    · simp [hik]

theorem sameHands_nextPlayerOrHand (fresh : Card × List Card) (ss : ServerState) :
    SameHands ss (nextPlayerOrHand fresh ss) := by
  unfold nextPlayerOrHand
  split
  · exact sameHands_of_seats_eq rfl
  · split
    · exact sameHands_of_seats_eq rfl
    · dsimp only
      split
      · refine sameHands_trans
          (sameHands_via_setSeatAt ss _ ss.game.activePlayerIndex
            (fun s => { s with status := .done }) (fun x => rfl) rfl)
          (sameHands_startDealerTurn fresh _)
      · exact sameHands_via_setSeatAt ss _ ss.game.activePlayerIndex
          (fun s => { s with status := .done }) (fun x => rfl) rfl

theorem activeSeatOf_spec {pid : String} {ss : ServerState} {si : Nat} {seat : Seat}
    (h : activeSeatOf pid ss = some (si, seat)) :
    ss.game.seats.get? si = some seat ∧ Int.ofNat si = ss.game.activePlayerIndex := by
  unfold activeSeatOf at h
  split at h
  · exact absurd h (by simp)
  · split at h
    · exact absurd h (by simp)
    · rename_i si' hfind
      split at h
      · exact absurd h (by simp)
      · rename_i hapi
        cases hg : ss.game.seats.get? si' with
        | none => rw [hg] at h; exact absurd h (by simp)
        | some s =>
          rw [hg] at h
          simp only [Option.map_some'] at h
          obtain ⟨h1, h2⟩ := Prod.mk.injEq .. ▸ Option.some.injEq .. ▸ h
          subst h1
          subst h2
          exact ⟨hg, by simpa using hapi⟩

/-- Reading `handStatusAt` at the active seat/hand indices gives the current hand. -/
theorem handStatusAt_read {ss : ServerState} {si J : Nat} {seat : Seat} {hand : Hand}
    (hseat : ss.game.seats.get? si = some seat)
    (hH : seat.hands.get? J = some hand) :
    handStatusAt ss si J = some hand.status := by
  unfold handStatusAt
  rw [hseat]
  rw [List.get?_eq_getElem?] at hH
  simp [hH]

/-- A seats update that only rewrites hand `J` of seat `si` leaves every
other hand's status alone. -/
theorem modifyAt_getElem? (l : List α) (n : Nat) (f : α → α) (i : Nat) :
    (modifyAt l n f)[i]? = if i = n then (l[i]?).map f else l[i]? := by
  simpa [List.get?_eq_getElem?] using modifyAt_get? l n f i

theorem handStatusAt_modify_hands (ss ss' : ServerState) (si J : Nat)
    (F : Seat → Seat) (fh : Hand → Hand)
    (hF : ∀ s, (F s).hands = modifyAt s.hands J fh)
    (h : ss'.game.seats = modifyAt ss.game.seats si F) (i j : Nat)
    (hne : ¬ (i = si ∧ j = J)) :
    handStatusAt ss' i j = handStatusAt ss i j := by
  unfold handStatusAt
  rw [h, modifyAt_get?]
  by_cases hik : i = si
  · have hj : ¬ j = J := fun hj => hne ⟨hik, hj⟩
    simp only [hik, if_pos rfl]
    cases hs : ss.game.seats.get? si <;> simp [hF, modifyAt_getElem?, hj]
  · simp [hik]

/-- Statuses either persist or the hand disappears (never a rewrite). -/
def StatusFate (s s' : ServerState) : Prop :=
  ∀ i j, handStatusAt s' i j = handStatusAt s i j ∨ handStatusAt s' i j = none

theorem statusFate_trans {s t u : ServerState} (h1 : StatusFate s t) (h2 : StatusFate t u) :
    StatusFate s u := by
  intro i j
  rcases h2 i j with h | h
  · rw [h]
    exact h1 i j
  · exact Or.inr h

theorem statusFate_of_sameHands {s s' : ServerState} (h : SameHands s s') :
    StatusFate s s' := fun i j => Or.inl (sameHands_handStatusAt h i j)

theorem statusFate_startBettingPhase (fresh : Card × List Card) (ss : ServerState) :
    StatusFate ss (startBettingPhase fresh ss) := by
  intro i j
  unfold handStatusAt startBettingPhase reshuffleShoe
  dsimp only
  rw [List.get?_map]
  have hseats : (if ss.game.needsReshuffle then
      { ss.game with
        shoe := fresh.1 :: fresh.2
        cutCardIndex := (fresh.1 :: fresh.2).length * 80 / 100
        needsReshuffle := false
        runningCount := 0 }
    else ss.game).seats = ss.game.seats := by
    split <;> rfl
  rw [hseats]
  cases hs : ss.game.seats.get? i with
  | none => simp
  | some s =>
    by_cases hp : s.playerId.isSome
    · right
      simp [hp]
      split <;> simp
    · left
      simp [hp]

theorem statusFate_checkGameState (fresh : Card × List Card) (ss : ServerState) :
    StatusFate ss (checkGameState fresh ss) := by
  unfold checkGameState
  split
  · exact statusFate_of_sameHands (sameHands_of_seats_eq rfl)
  · split
    · exact statusFate_startBettingPhase fresh ss
    · exact statusFate_of_sameHands (sameHands_of_seats_eq rfl)

/-- Replacing one seat wholesale makes its hands disappear and leaves every
other seat alone. -/
theorem statusFate_set_seat (ss ss' : ServerState) (si : Nat)
    (h : ss'.game.seats = ss.game.seats.set si createEmptySeat) :
    StatusFate ss ss' := by
  intro i j
  unfold handStatusAt
  rw [h]
  by_cases hik : i = si
  · subst hik
    right
    rw [List.get?_eq_getElem?, List.getElem?_set_self']
    cases hs : ss.game.seats[i]? <;> simp [createEmptySeat]
  · left
    rw [List.get?_eq_getElem?, List.get?_eq_getElem?,
      List.getElem?_set_ne (fun hh => hik hh.symm)]

theorem sameHands_refl (ss : ServerState) : SameHands ss ss := fun _ => rfl

theorem seatAt_some {g : GameState} {k : Int} {seat : Seat}
    (h : seatAt g k = some seat) :
    ¬ k < 0 ∧ g.seats.get? k.toNat = some seat := by
  unfold seatAt at h
  split at h
  · exact absurd h (by simp)
  · rename_i hk
    exact ⟨hk, h⟩

/-- The handler `handleStand` never touches the status of a hand that is not `playing`. -/
theorem stand_preserves_terminal (fresh : Card × List Card) (pid : String)
    (ss : ServerState) (i j : Nat) (st : HandStatus)
    (hst : handStatusAt ss i j = some st) (hnp : ¬ st = .playing) :
    handStatusAt (handleStand fresh pid ss).ss i j = some st := by
  unfold handleStand
  cases hA : activeSeatOf pid ss with
  | none => exact hst
  | some pr =>
    obtain ⟨si, seat⟩ := pr
    obtain ⟨hseat, hapi⟩ := activeSeatOf_spec hA
    dsimp only
    cases hH : seat.hands.get? ss.game.activeHandIndex with
    | none => exact hst
    | some hand =>
      try dsimp only
      by_cases hpl : hand.status = .playing
      · rw [if_neg (not_not_intro hpl)]
        try dsimp only
        rw [sameHands_handStatusAt (sameHands_nextPlayerOrHand fresh _) i j]
        by_cases hij : i = si ∧ j = ss.game.activeHandIndex
        · exfalso
          obtain ⟨hi, hj⟩ := hij
          subst hi
          subst hj
          have hr := handStatusAt_read hseat hH
          rw [hst] at hr
          injection hr with h'
          exact hnp (h'.trans hpl)
        · rw [handStatusAt_modify_hands ss _ si ss.game.activeHandIndex _
            (fun h => { h with status := .standing }) (fun s => rfl) rfl i j hij]
          exact hst
      · rw [if_pos hpl]
        exact hst

/-- The handler `handleHit` never touches the status of a hand that is not `playing`. -/
theorem hit_preserves_terminal (fresh : Card × List Card) (pid : String)
    (ss : ServerState) (i j : Nat) (st : HandStatus)
    (hst : handStatusAt ss i j = some st) (hnp : ¬ st = .playing) :
    handStatusAt (handleHit fresh pid ss).ss i j = some st := by
  unfold handleHit
  cases hA : activeSeatOf pid ss with
  | none => exact hst
  | some pr =>
    obtain ⟨si, seat⟩ := pr
    obtain ⟨hseat, hapi⟩ := activeSeatOf_spec hA
    dsimp only
    cases hH : seat.hands.get? ss.game.activeHandIndex with
    | none => exact hst
    | some hand =>
      try dsimp only
      by_cases hpl : hand.status = .playing
      · rw [if_neg (not_not_intro hpl)]
        try dsimp only
        by_cases hij : i = si ∧ j = ss.game.activeHandIndex
        · exfalso
          obtain ⟨hi, hj⟩ := hij
          subst hi
          subst hj
          have hr := handStatusAt_read hseat hH
          rw [hst] at hr
          injection hr with h'
          exact hnp (h'.trans hpl)
        · have hmod := handStatusAt_modify_hands ss
            ⟨{ (drawCard fresh ss.game).2 with
                seats := (modifyAt (drawCard fresh ss.game).2.seats si (fun s =>
                  { s with hands := (modifyAt s.hands ss.game.activeHandIndex (fun h =>
                      { h with
                        cards := hand.cards ++ [(drawCard fresh ss.game).1]
                        status :=
                          if 21 < (calculateHandValue (hand.cards ++ [(drawCard fresh ss.game).1])).value
                          then HandStatus.busted
                          else if (calculateHandValue (hand.cards ++ [(drawCard fresh ss.game).1])).value = 21
                          then HandStatus.standing else hand.status })) })) },
              ss.pending⟩
            si ss.game.activeHandIndex _ _ (fun s => rfl)
            (by rw [drawCard_seats]) i j hij
          split
          · rw [sameHands_handStatusAt (sameHands_nextPlayerOrHand fresh _) i j, hmod]
            exact hst
          · rw [show handStatusAt _ i j = some st from hmod ▸ hst]
      · rw [if_pos hpl]
        exact hst

/-- The handler `handleSurrender` never touches the status of a hand that is not
`playing`. -/
theorem surrender_preserves_terminal (fresh : Card × List Card) (pid : String)
    (ss : ServerState) (i j : Nat) (st : HandStatus)
    (hst : handStatusAt ss i j = some st) (hnp : ¬ st = .playing) :
    handStatusAt (handleSurrender fresh pid ss).ss i j = some st := by
  unfold handleSurrender
  cases hA : activeSeatOf pid ss with
  | none => exact hst
  | some pr =>
    obtain ⟨si, seat⟩ := pr
    obtain ⟨hseat, hapi⟩ := activeSeatOf_spec hA
    dsimp only
    cases hH : seat.hands.get? ss.game.activeHandIndex with
    | none => exact hst
    | some hand =>
      try dsimp only
      by_cases hpl : hand.status = .playing
      · rw [if_neg (not_not_intro hpl)]
        try dsimp only
        split
        · exact hst
        · by_cases hij : i = si ∧ j = ss.game.activeHandIndex
          · exfalso
            obtain ⟨hi, hj⟩ := hij
            subst hi
            subst hj
            have hr := handStatusAt_read hseat hH
            rw [hst] at hr
            injection hr with h'
            exact hnp (h'.trans hpl)
          · rw [sameHands_handStatusAt (sameHands_nextPlayerOrHand fresh _) i j]
            rw [handStatusAt_modify_hands ss _ si ss.game.activeHandIndex _
              (fun h => { h with status := .surrendered }) (fun s => rfl) rfl i j hij]
            exact hst
      · rw [if_pos hpl]
        exact hst

/-- The handler `handleDouble` only ever changes the status of the hand at the active
indices. -/
theorem double_changes_only_active (fresh : Card × List Card) (pid : String)
    (ss : ServerState) (i j : Nat) (st : HandStatus)
    (hst : handStatusAt ss i j = some st)
    (hact : ¬ (Int.ofNat i = ss.game.activePlayerIndex ∧ j = ss.game.activeHandIndex)) :
    handStatusAt (handleDouble fresh pid ss).ss i j = some st := by
  unfold handleDouble
  cases hA : activeSeatOf pid ss with
  | none => exact hst
  | some pr =>
    obtain ⟨si, seat⟩ := pr
    obtain ⟨hseat, hapi⟩ := activeSeatOf_spec hA
    dsimp only
    cases hH : seat.hands.get? ss.game.activeHandIndex with
    | none => exact hst
    | some hand =>
      try dsimp only
      have hij : ¬ (i = si ∧ j = ss.game.activeHandIndex) := by
        intro hij
        exact hact ⟨by rw [hij.1, hapi], hij.2⟩
      split
      · exact hst
      · split
        · exact hst
        · dsimp only
          rw [sameHands_handStatusAt (sameHands_nextPlayerOrHand fresh _) i j]
          rw [handStatusAt_modify_hands ss _ si ss.game.activeHandIndex _
            (fun h => { h with
              cards := hand.cards ++ [(drawCard fresh ss.game).1]
              bet := h.bet * 2
              isDoubled := true
              status :=
                if 21 < (calculateHandValue (hand.cards ++ [(drawCard fresh ss.game).1])).value
                then HandStatus.busted else HandStatus.standing })
            (fun s => rfl) (by rw [drawCard_seats]) i j hij]
          exact hst

/-- The handler `onTurnTimeout` only ever changes the status of the hand at the active
indices. -/
theorem timeout_changes_only_active (fresh : Card × List Card)
    (ss : ServerState) (i j : Nat) (st : HandStatus)
    (hst : handStatusAt ss i j = some st)
    (hact : ¬ (Int.ofNat i = ss.game.activePlayerIndex ∧ j = ss.game.activeHandIndex)) :
    handStatusAt (onTurnTimeout fresh ss) i j = some st := by
  unfold onTurnTimeout
  cases hA : seatAt ss.game ss.game.activePlayerIndex with
  | none => exact hst
  | some seat =>
    obtain ⟨hneg, hget⟩ := seatAt_some hA
    dsimp only
    cases hH : seat.hands.get? ss.game.activeHandIndex with
    | none => exact hst
    | some hand =>
      try dsimp only
      have hij : ¬ (i = ss.game.activePlayerIndex.toNat ∧ j = ss.game.activeHandIndex) := by
        intro hij
        refine hact ⟨?_, hij.2⟩
        rw [hij.1]
        exact Int.toNat_of_nonneg (by omega)
      rw [sameHands_handStatusAt (sameHands_nextPlayerOrHand fresh _) i j]
      have hset : (setSeatAt ss.game ss.game.activePlayerIndex (fun s =>
          { s with hands := (modifyAt s.hands ss.game.activeHandIndex
              (fun h => { h with status := .standing })) })).seats
          = modifyAt ss.game.seats ss.game.activePlayerIndex.toNat (fun s =>
            { s with hands := (modifyAt s.hands ss.game.activeHandIndex
              (fun h => { h with status := .standing })) }) := by
        unfold setSeatAt
        rw [if_neg hneg]
      rw [handStatusAt_modify_hands ss _ ss.game.activePlayerIndex.toNat
        ss.game.activeHandIndex _
        (fun h => { h with status := .standing }) (fun s => rfl) hset i j hij]
      exact hst

/-- The handler `onClose` never rewrites a hand status: every status either persists or
its seat has been vacated (hands removed). -/
theorem close_never_rewrites_status (fresh : Card × List Card) (pid : String)
    (ss : ServerState) :
    StatusFate ss (onClose fresh pid ss) := by
  have hAfter : ∀ t : ServerState, StatusFate ss t →
      StatusFate ss (checkGameState fresh { t with game := { t.game with
        spectators := t.game.spectators.filter (fun p => decide (¬ p.1 = pid)) } }) := by
    intro t ht
    refine statusFate_trans ht (statusFate_trans ?_ (statusFate_checkGameState fresh _))
    exact statusFate_of_sameHands (sameHands_of_seats_eq rfl)
  unfold onClose
  refine hAfter _ ?_
  cases hF : findSeatIdx pid ss.game.seats with
  | none => exact statusFate_of_sameHands (sameHands_refl ss)
  | some si =>
    dsimp only
    cases hg : ss.game.seats.get? si with
    | none => exact statusFate_of_sameHands (sameHands_refl ss)
    | some seat =>
      dsimp only
      split
      · split
        · exact statusFate_trans (statusFate_set_seat ss _ si rfl)
            (statusFate_of_sameHands (sameHands_startDealerTurn fresh _))
        · exact statusFate_set_seat ss _ si rfl
      · exact statusFate_set_seat ss _ si rfl

/-- C9 as amended: terminal statuses never transition — the hit, stand and
surrender handlers change only hands currently in status `playing`; the
double handler and the turn-timeout auto-stand change only the hand at the
active indices; and a connection close never rewrites a status (it only
forfeits and removes the closing seat's hands).  (The one-playing-hand-per-
seat part of the original claim is refuted separately: a split leaves two
playing hands on the seat.) -/
theorem c9_terminal_statuses_never_transition :
    (∀ (fresh : Card × List Card) (pid : String) (ss : ServerState) (i j : Nat)
        (st : HandStatus), handStatusAt ss i j = some st → ¬ st = .playing →
        handStatusAt (handleStand fresh pid ss).ss i j = some st) ∧
    (∀ (fresh : Card × List Card) (pid : String) (ss : ServerState) (i j : Nat)
        (st : HandStatus), handStatusAt ss i j = some st → ¬ st = .playing →
        handStatusAt (handleHit fresh pid ss).ss i j = some st) ∧
    (∀ (fresh : Card × List Card) (pid : String) (ss : ServerState) (i j : Nat)
        (st : HandStatus), handStatusAt ss i j = some st → ¬ st = .playing →
        handStatusAt (handleSurrender fresh pid ss).ss i j = some st) ∧
    (∀ (fresh : Card × List Card) (pid : String) (ss : ServerState) (i j : Nat)
        (st : HandStatus), handStatusAt ss i j = some st →
        ¬ (Int.ofNat i = ss.game.activePlayerIndex ∧ j = ss.game.activeHandIndex) →
        handStatusAt (handleDouble fresh pid ss).ss i j = some st) ∧
    (∀ (fresh : Card × List Card) (ss : ServerState) (i j : Nat)
        (st : HandStatus), handStatusAt ss i j = some st →
        ¬ (Int.ofNat i = ss.game.activePlayerIndex ∧ j = ss.game.activeHandIndex) →
        handStatusAt (onTurnTimeout fresh ss) i j = some st) ∧
    (∀ (fresh : Card × List Card) (pid : String) (ss : ServerState) (i j : Nat),
        handStatusAt (onClose fresh pid ss) i j = handStatusAt ss i j ∨
        handStatusAt (onClose fresh pid ss) i j = none) :=
  ⟨stand_preserves_terminal, hit_preserves_terminal, surrender_preserves_terminal,
   double_changes_only_active, timeout_changes_only_active,
   fun fresh pid ss i j => close_never_rewrites_status fresh pid ss i j⟩

/-- A player-turn state whose single (active) hand is already standing. -/
def exTermSS : ServerState :=
  { game := { createInitialGameState [] with
      phase := GamePhase.player_turn
      seats := [{ playerId := some pidP, displayName := nameAl, chips := 500, bet := 0,
                  lastBet := 0,
                  hands := [{ cards := [], bet := 10, status := .standing,
                              isDoubled := false, isSplit := false }],
                  status := .playing, insuranceBet := 0 }]
      activePlayerIndex := 0
      activeHandIndex := 0 }
    pending := some .pTurnTimeout }

/-- Witness for C9: at the concrete state, a `stand` and a turn timeout leave
the standing hand's status intact (the timeout is applied at a non-active
index pair). -/
theorem c9_terminal_statuses_never_transition_witness :
    handStatusAt (handleStand exFresh pidP exTermSS).ss 0 0 = some .standing ∧
    (handStatusAt (onClose exFresh pidP exTermSS) 0 0 = handStatusAt exTermSS 0 0 ∨
     handStatusAt (onClose exFresh pidP exTermSS) 0 0 = none) :=
  ⟨c9_terminal_statuses_never_transition.1 exFresh pidP exTermSS 0 0 .standing
      (by decide) (by decide),
   c9_terminal_statuses_never_transition.2.2.2.2.2 exFresh pidP exTermSS 0 0⟩

end BJ
